import Mathlib

/-!
Verification development for the lucky-kameti membership service.

The definitions below are a shallow embedding of the Express handlers in the
repository's main server file (`index.js`, served from `src/unnamed/part_000`)
and of the drizzle table schema (`shared/schema.js`).  Persistent state is a
`DB` record holding the `entries` and `winners` tables; each HTTP handler that
mutates state becomes a pure function from a `DB` (plus request data) to a new
`DB` together with its response and the notification e-mails it dispatched.
Timestamps are naturals (milliseconds), statuses are the literal strings the
code stores, and fallible storage writes are modelled with explicit failure
flags (a flag set means the corresponding database write raises a non-unique
constraint error, mirroring a PostgreSQL persistence failure).
-/

/-- A row of the `entries` table (schema.js).  `timestamp` is the creation
time; optional columns are `Option`. -/
structure Entry where
  id : Nat
  name : String
  email : String
  ref : String
  paid : Bool
  status : String
  timestamp : Nat
  paypalOrderId : Option String
  lastPaymentDate : Option Nat
  renewalDue : Option Nat
  referralCode : Option String
  referredBy : Option Nat
  referralCount : Nat
  entryCount : Nat
  termsAccepted : Bool
  termsAcceptedAt : Option Nat
deriving DecidableEq, Repr

/-- A row of the `winners` table (schema.js). -/
structure Winner where
  id : Nat
  name : String
  email : String
  ref : String
  entryId : Option Nat
  announceDate : Nat
  paymentStatus : String
  winningAmount : String
  emailSent : Bool
  adminVerified : Bool
  paidAt : Option Nat
deriving DecidableEq, Repr

/-- The shared persistent state: the two tables the claims are about, plus
the serial-id counters PostgreSQL keeps for their primary keys. -/
structure DB where
  entries : List Entry
  winners : List Winner
  nextEntryId : Nat
  nextWinnerId : Nat
deriving DecidableEq, Repr

/-- Errors the `POST /capture-order` handler can answer with.  Each
constructor corresponds to one distinct error response of the handler;
`dbSaveFailed` is the generic 500 "Failed to save entry to database" and
`refExhausted` the 500 "Failed to generate unique reference after multiple
attempts". -/
inductive CaptureError where
  | credsMissing
  | termsNotAccepted
  | alreadyActive
  | captureFailed
  | amountMismatch
  | invalidReferralCode
  | referrerInactive
  | selfReferral
  | dbSaveFailed
  | refExhausted
deriving DecidableEq, Repr

/-- Successful `capture-order` response: `res.json with success, ref, renewed`. -/
structure CaptureResult where
  ref : String
  renewed : Bool
deriving DecidableEq, Repr

/-- Request data and environment for one `POST /capture-order` call.  The
PayPal round trip is out of scope, so the capture response is summarised by
the fields the handler inspects (`response.ok`, `data.status`, the captured
amount, `data.id`).  `refCountFail` injects a storage failure into the
referral-count update write (the second write of the commit). -/
structure CaptureArgs where
  name : String
  email : String
  referralCode : Option String
  termsAccepted : Bool
  paypalCredsOk : Bool
  captureRespOk : Bool
  captureStatus : String
  amountValue : String
  amountCurrency : String
  paypalOrderId : String
  refCountFail : Bool
deriving DecidableEq, Repr

deriving instance DecidableEq for Except

/-- Outcome of a `capture-order` call: the state left behind, the automated
e-mails dispatched (recipient, sendEmail template type), and the response. -/
structure CaptureOutcome where
  db : DB
  emails : List (String × String)
  result : Except CaptureError CaptureResult
deriving DecidableEq, Repr

/-- `db.select().from(entries).where(eq(entries.email, email))`, first row. -/
def findEntryByEmail (db : DB) (email : String) : Option Entry :=
  db.entries.find? (fun e => e.email == email)

/-- `db.select().from(entries).where(eq(entries.ref, code))`, first row. -/
def findEntryByRef (db : DB) (code : String) : Option Entry :=
  db.entries.find? (fun e => e.ref == code)

/-- `db.select().from(entries).where(eq(entries.id, i))`, first row. -/
def findEntryById (db : DB) (i : Nat) : Option Entry :=
  db.entries.find? (fun e => e.id == i)

/-- The referral-count increment write:
`db.update(entries).set(referralCount + 1).where(eq(entries.id, rid))`. -/
def incReferralCount (db : DB) (rid : Nat) : DB :=
  { db with entries := db.entries.map (fun x =>
      if x.id == rid then { x with referralCount := x.referralCount + 1 } else x) }

/-- Server-side referral validation inside the capture loop: look the code up
by `entries.ref`; reject absent, inactive, and self referrers, in that
order. -/
def referralCheck (db : DB) (a : CaptureArgs) : Except CaptureError (Option Entry) :=
  match a.referralCode with
  | none => .ok none
  | some rc =>
    match findEntryByRef db rc with
    | none => .error .invalidReferralCode
    | some referrer =>
      if referrer.status == "active" then
        if referrer.email == a.email then .error .selfReferral
        else .ok (some referrer)
      else .error .referrerInactive

/-- The `renewalData` update applied to a row by
`db.update(entries).set(renewalData).where(eq(entries.email, email))`.
`newReferral` is `validatedReferrer and not existingEntry.referredBy`. -/
def renewalApply (a : CaptureArgs) (now : Nat) (newReferral : Bool)
    (validated : Option Entry) (x : Entry) : Entry :=
  { x with
    name := a.name
    status := "active"
    paid := true
    paypalOrderId := some a.paypalOrderId
    lastPaymentDate := some now
    renewalDue := some (now + 2592000000)
    entryCount := x.entryCount + 1
    referralCode := if newReferral then a.referralCode else x.referralCode
    referredBy := if newReferral then validated.map (fun r => r.id) else x.referredBy
    termsAccepted := if a.termsAccepted then true else x.termsAccepted
    termsAcceptedAt := if a.termsAccepted then some now else x.termsAcceptedAt }

/-- Renewal branch of the capture loop (`existingEntry` truthy): update the
row in place, then run the separate referral-count write when a referrer was
newly attached.  The two writes are distinct statements, not one
transaction: when the second write fails the first one stays committed and
the handler answers the generic database error. -/
def renewalStep (db : DB) (a : CaptureArgs) (now : Nat) (e : Entry)
    (validated : Option Entry) : CaptureOutcome :=
  let newReferral := validated.isSome && e.referredBy == none
  let db1 : DB := { db with entries := db.entries.map (fun x =>
      if x.email == a.email then renewalApply a now newReferral validated x else x) }
  if newReferral then
    if a.refCountFail then ⟨db1, [], .error .dbSaveFailed⟩
    else
      let db2 := incReferralCount db1 ((validated.map (fun r => r.id)).getD 0)
      ⟨db2, [(a.email, "renewalNotification")], .ok ⟨e.ref, true⟩⟩
  else ⟨db1, [(a.email, "renewalNotification")], .ok ⟨e.ref, true⟩⟩

/-- The fresh row built by `db.insert(entries).values(newEntryData)`,
with the schema defaults for the columns the handler does not set. -/
def newEntryOf (db : DB) (a : CaptureArgs) (now : Nat) (ref : String)
    (validated : Option Entry) : Entry :=
  { id := db.nextEntryId
    name := a.name
    email := a.email
    ref := ref
    paid := true
    status := "active"
    timestamp := now
    paypalOrderId := some a.paypalOrderId
    lastPaymentDate := some now
    renewalDue := some (now + 2592000000)
    referralCode := if validated.isSome then a.referralCode else none
    referredBy := validated.map (fun r => r.id)
    referralCount := 0
    entryCount := 1
    termsAccepted := a.termsAccepted
    termsAcceptedAt := if a.termsAccepted then some now else none }

/-- New-entry branch of the capture loop after a collision-free insert:
the insert commits, then the separate referral-count write runs; a failure
of that second write leaves the inserted row behind. -/
def insertStep (db : DB) (a : CaptureArgs) (now : Nat) (ref : String)
    (validated : Option Entry) : CaptureOutcome :=
  let db1 : DB := { db with
    entries := db.entries ++ [newEntryOf db a now ref validated]
    nextEntryId := db.nextEntryId + 1 }
  match validated with
  | some referrer =>
    if a.refCountFail then ⟨db1, [], .error .dbSaveFailed⟩
    else ⟨incReferralCount db1 referrer.id,
          [(a.email, "paymentVerification")], .ok ⟨ref, false⟩⟩
  | none => ⟨db1, [(a.email, "paymentVerification")], .ok ⟨ref, false⟩⟩

/-- One candidate number from the allocator
`Math.floor(Math.random() * 90000 + 10000)`: the random draw is a number
below `90000`, shifted into `10000..99999`. -/
def allocCandidateNum (r : Nat) : Nat := r % 90000 + 10000

/-- One candidate reference code, `"DW" + the candidate number`. -/
def allocCandidate (r : Nat) : String := "DW" ++ toString (allocCandidateNum r)

/-- The storage uniqueness constraints hit by the insert: `entries.ref` and
`entries.email` are both unique columns, so the insert raises error code
23505 exactly when a stored row already carries the candidate ref or the
paying email. -/
def hasConflict (db : DB) (a : CaptureArgs) (ref : String) : Bool :=
  db.entries.any (fun x => x.ref == ref || x.email == a.email)

/-- The `while (attempts < maxAttempts)` retry loop of `POST /capture-order`.
`attempts` is the number of attempts already begun, `fuel` the remaining
iterations the `while` guard allows (`5 - attempts`).  A renewal reuses
`existingEntry.ref` and never retries; a new entry draws
`allocCandidate (rands[attempts])` and retries on a 23505 conflict while
`attempts + 1 < 5`, otherwise it answers the generic database error.  The
exit of the `while` loop (`fuel = 0`) answers the dedicated
reference-exhausted error. -/
def captureLoop (a : CaptureArgs) (existing : Option Entry) (now : Nat)
    (rands : List Nat) : DB → Nat → Nat → CaptureOutcome
  | db, _, 0 => ⟨db, [], .error .refExhausted⟩
  | db, attempts, fuel + 1 =>
    match referralCheck db a with
    | .error err => ⟨db, [], .error err⟩
    | .ok validated =>
      match existing with
      | some e => renewalStep db a now e validated
      | none =>
        let ref := allocCandidate (rands.getD attempts 0)
        if hasConflict db a ref then
          if attempts + 1 < 5 then captureLoop a existing now rands db (attempts + 1) fuel
          else ⟨db, [], .error .dbSaveFailed⟩
        else insertStep db a now ref validated

/-- `POST /capture-order`: credential gate, terms gate, duplicate-active
gate, PayPal capture verification, amount verification, then the retry
loop starting at `attempts = 0`. -/
def captureOrder (db : DB) (a : CaptureArgs) (now : Nat) (rands : List Nat) :
    CaptureOutcome :=
  if !a.paypalCredsOk then ⟨db, [], .error .credsMissing⟩
  else if !a.termsAccepted then ⟨db, [], .error .termsNotAccepted⟩
  else if (findEntryByEmail db a.email).any (fun e => e.status == "active") then
    ⟨db, [], .error .alreadyActive⟩
  else if !(a.captureRespOk && a.captureStatus == "COMPLETED") then
    ⟨db, [], .error .captureFailed⟩
  else if !(a.amountValue == "50.00" && a.amountCurrency == "USD") then
    ⟨db, [], .error .amountMismatch⟩
  else captureLoop a (findEntryByEmail db a.email) now rands db 0 5

/-- Errors of the admin winner/entry routes; each constructor is one distinct
error response. -/
inductive AdminError where
  | missingId
  | entryNotFound
  | entryNotActive
  | winnerAlreadyPending
  | winnerNotFound
  | entryReferencedByWinner
  | dbSaveFailed
deriving DecidableEq, Repr

deriving instance DecidableEq for Except

/-- First pending winner, as read by the check-then-insert of
`POST /admin/select-winner`. -/
def findPendingWinner (db : DB) : Option Winner :=
  db.winners.find? (fun w => w.paymentStatus == "pending")

/-- `POST /admin/select-winner`: requires a truthy `entryId`, an existing
entry, active status, and no pending winner, all checked before the insert;
on success inserts a winner snapshotting the entry's name, email and ref. -/
def selectWinnerOp (db : DB) (entryId now : Nat) : DB × Except AdminError Winner :=
  if entryId == 0 then (db, .error .missingId)
  else
    match findEntryById db entryId with
    | none => (db, .error .entryNotFound)
    | some e =>
      if e.status == "active" then
        match findPendingWinner db with
        | some _ => (db, .error .winnerAlreadyPending)
        | none =>
          let w : Winner :=
            { id := db.nextWinnerId
              name := e.name
              email := e.email
              ref := e.ref
              entryId := some e.id
              announceDate := now
              paymentStatus := "pending"
              winningAmount := "1000"
              emailSent := false
              adminVerified := false
              paidAt := none }
          ({ db with winners := db.winners ++ [w], nextWinnerId := db.nextWinnerId + 1 },
           .ok w)
      else (db, .error .entryNotActive)

/-- `POST /admin/winner-paid`: update the winner row to paid with `paidAt`
set, then, as a second separate statement, update the linked entry's status
to `winner_paid`.  `entryUpdateFail` injects a storage failure into that
second write; the winner update stays committed when it fires. -/
def markPaidOp (db : DB) (winnerId now : Nat) (entryUpdateFail : Bool) :
    DB × Except AdminError Winner :=
  if winnerId == 0 then (db, .error .missingId)
  else
    match db.winners.find? (fun w => w.id == winnerId) with
    | none => (db, .error .winnerNotFound)
    | some w =>
      let w' : Winner := { w with paymentStatus := "paid", paidAt := some now }
      let db1 : DB := { db with winners := db.winners.map (fun x =>
          if x.id == winnerId then { x with paymentStatus := "paid", paidAt := some now }
          else x) }
      if entryUpdateFail then (db1, .error .dbSaveFailed)
      else
        match w.entryId with
        | some eid =>
          ({ db1 with entries := db1.entries.map (fun e =>
              if e.id == eid then { e with status := "winner_paid" } else e) }, .ok w')
        | none => (db1, .ok w')

/-- `DELETE /admin/winner/:id`. -/
def deleteWinnerOp (db : DB) (winnerId : Nat) : DB :=
  if winnerId == 0 then db
  else { db with winners := db.winners.filter (fun w => !(w.id == winnerId)) }

/-- `DELETE /admin/entry/:id`: blocked while any winner references the
entry, otherwise the row is removed. -/
def deleteEntryOp (db : DB) (entryId : Nat) : DB × Except AdminError Unit :=
  if entryId == 0 then (db, .error .missingId)
  else if db.winners.any (fun w => w.entryId == some entryId) then
    (db, .error .entryReferencedByWinner)
  else ({ db with entries := db.entries.filter (fun e => !(e.id == entryId)) }, .ok ())

/-- `monthlyStatusReset`: read the active entries; if none, stop; otherwise
expire every active entry and send one due-payment reminder per previously
active entry (sendEmail template `duePaymentReminder`). -/
def monthlyStatusReset (db : DB) : DB × List (String × String) :=
  let active := db.entries.filter (fun e => e.status == "active")
  if active.isEmpty then (db, [])
  else
    ({ db with entries := db.entries.map (fun e =>
        if e.status == "active" then { e with status := "expired" } else e) },
     active.map (fun e => (e.email, "duePaymentReminder")))

/-- First element minimising `key`, mirroring `orderBy(col).limit(1)` with
drizzle's default ascending order. -/
def minByKey (key : Winner → Nat) : List Winner → Option Winner
  | [] => none
  | w :: ws =>
    match minByKey key ws with
    | none => some w
    | some m => if key w ≤ key m then some w else some m

/-- Sort key used for the paid-winner query: `paidAt` (never null for a paid
row reaching the query's filter). -/
def paidKey (w : Winner) : Nat := w.paidAt.getD 0

/-- The pending rows read by `GET /current-winner`. -/
def pendingWinners (db : DB) : List Winner :=
  db.winners.filter (fun w => w.paymentStatus == "pending")

/-- The rows matching the query's second filter: paid, with
`paidAt > now - 5 minutes` (a null `paidAt` never satisfies the strict SQL
comparison). -/
def recentPaidWinners (db : DB) (now : Nat) : List Winner :=
  db.winners.filter (fun w =>
    w.paymentStatus == "paid" && decide (now - 300000 < w.paidAt.getD 0))

/-- `GET /current-winner`: the first pending winner by announce date, else
the first winner by `paidAt` among those paid within the trailing five
minutes, else no winner. -/
def currentWinner (db : DB) (now : Nat) : Option Winner :=
  match minByKey (fun w => w.announceDate) (pendingWinners db) with
  | some w => some w
  | none => minByKey paidKey (recentPaidWinners db now)

/-- `Math.round(x * 100) / 100`, rounding half-up to two decimals, on exact
rationals. -/
def round2 (q : ℚ) : ℚ := (round (q * 100) : ℤ) / 100

/-- `member.entryCount || 1` (a zero count is replaced by one). -/
def effectiveCount (entryCount : Nat) : Nat :=
  if entryCount == 0 then 1 else entryCount

/-- `totalPaid = entryCount * 50` dollars. -/
def totalPaidOf (entryCount : Nat) : ℚ := (effectiveCount entryCount : ℚ) * 50

/-- `serviceCharge = Math.round(totalPaid * 0.07 * 100) / 100`. -/
def serviceChargeOf (entryCount : Nat) : ℚ :=
  round2 (totalPaidOf entryCount * (7 / 100))

/-- `refundAmount = Math.round((totalPaid - serviceCharge) * 100) / 100`. -/
def refundAmountOf (entryCount : Nat) : ℚ :=
  round2 (totalPaidOf entryCount - serviceChargeOf entryCount)

/-- `eligible = entryCount >= 10` on the defaulted count. -/
def withdrawalEligible (entryCount : Nat) : Bool :=
  decide (10 ≤ effectiveCount entryCount)

/-- The state-mutating operations of the service, for reachability
arguments.  Inquiry, e-mail-log and withdrawal routes never touch the
`entries` or `winners` tables and are omitted from the state. -/
inductive Op where
  | capture (a : CaptureArgs) (now : Nat) (rands : List Nat)
  | select (entryId now : Nat)
  | markPaid (winnerId now : Nat) (entryUpdateFail : Bool)
  | deleteWinner (winnerId : Nat)
  | deleteEntry (entryId : Nat)
  | monthlyReset

/-- State transition of one operation. -/
def applyOp (db : DB) : Op → DB
  | .capture a now rands => (captureOrder db a now rands).db
  | .select entryId now => (selectWinnerOp db entryId now).1
  | .markPaid winnerId now fl => (markPaidOp db winnerId now fl).1
  | .deleteWinner winnerId => deleteWinnerOp db winnerId
  | .deleteEntry entryId => (deleteEntryOp db entryId).1
  | .monthlyReset => (monthlyStatusReset db).1

/-- Run a sequence of operations. -/
def runOps (db : DB) (ops : List Op) : DB := ops.foldl applyOp db

/-- The empty freshly migrated database. -/
def initDB : DB := { entries := [], winners := [], nextEntryId := 1, nextWinnerId := 1 }

/-- A state is reachable when some operation sequence produces it from the
empty database. -/
def Reachable (db : DB) : Prop := ∃ ops : List Op, db = runOps initDB ops

/-- Number of pending winner rows. -/
def pendingCount (db : DB) : Nat :=
  db.winners.countP (fun w => w.paymentStatus == "pending")

/-- Pairwise distinctness of the unique `email` column. -/
def NoDupEmails (l : List Entry) : Prop :=
  l.Pairwise (fun x y => x.email ≠ y.email)

/-- Number of entry rows carrying an email. -/
def emailCount (l : List Entry) (em : String) : Nat :=
  l.countP (fun e => e.email == em)

/-- Every old row survives with its email and reference code intact. -/
def RefsPreserved (old new : List Entry) : Prop :=
  ∀ e ∈ old, ∃ e' ∈ new, e'.email = e.email ∧ e'.ref = e.ref

/-- Concrete entry row used by the concrete instances below: a member with
the given id, name, email, reference code and status, the remaining columns
at their schema defaults. -/
def mkEntry (id : Nat) (nm em rf st : String) : Entry :=
  { id := id
    name := nm
    email := em
    ref := rf
    paid := true
    status := st
    timestamp := 0
    paypalOrderId := none
    lastPaymentDate := none
    renewalDue := none
    referralCode := none
    referredBy := none
    referralCount := 0
    entryCount := 1
    termsAccepted := true
    termsAcceptedAt := none }

/-- Concrete winner row used by the concrete instances below. -/
def mkWinner (id : Nat) (nm em rf : String) (eid : Option Nat) (announce : Nat)
    (st : String) (paidAt : Option Nat) : Winner :=
  { id := id
    name := nm
    email := em
    ref := rf
    entryId := eid
    announceDate := announce
    paymentStatus := st
    winningAmount := "1000"
    emailSent := false
    adminVerified := false
    paidAt := paidAt }

/-- Concrete capture request with a verified PayPal capture of the exact
entry fee. -/
def mkArgs (nm em : String) (rc : Option String) (fail : Bool) : CaptureArgs :=
  { name := nm
    email := em
    referralCode := rc
    termsAccepted := true
    paypalCredsOk := true
    captureRespOk := true
    captureStatus := "COMPLETED"
    amountValue := "50.00"
    amountCurrency := "USD"
    paypalOrderId := "PAYPAL-1"
    refCountFail := fail }

/-- Sample state: a single expired member, ready for a renewal. -/
def dbRenewal : DB :=
  { entries := [mkEntry 1 "Alice" "a@x" "DW10000" "expired"]
    winners := [], nextEntryId := 2, nextWinnerId := 1 }

/-- Sample state: a single active member acting as a referrer. -/
def dbReferrer : DB :=
  { entries := [mkEntry 1 "Rita" "r@x" "DW10000" "active"]
    winners := [], nextEntryId := 2, nextWinnerId := 1 }

/-- Sample state: five active members whose reference codes collide with the
first five allocator candidates for the random draws 0..4. -/
def dbColl5 : DB :=
  { entries :=
      [mkEntry 1 "A" "a1@x" "DW10000" "active",
       mkEntry 2 "B" "a2@x" "DW10001" "active",
       mkEntry 3 "C" "a3@x" "DW10002" "active",
       mkEntry 4 "D" "a4@x" "DW10003" "active",
       mkEntry 5 "E" "a5@x" "DW10004" "active"]
    winners := [], nextEntryId := 6, nextWinnerId := 1 }

/-- Sample state: one active member and a pending winner referencing it. -/
def dbWinPending : DB :=
  { entries := [mkEntry 1 "Ann" "a@x" "DW10000" "active"]
    winners := [mkWinner 1 "Ann" "a@x" "DW10000" (some 1) 10 "pending" none]
    nextEntryId := 2, nextWinnerId := 2 }

/-- Sample state: two winners paid at different times, no pending winner. -/
def dbPaidTwo : DB :=
  { entries := []
    winners :=
      [mkWinner 1 "Ann" "a@x" "DW10000" (some 1) 10 "paid" (some 100000),
       mkWinner 2 "Ben" "b@x" "DW10001" (some 2) 20 "paid" (some 200000)]
    nextEntryId := 1, nextWinnerId := 3 }

theorem countP_map_eq {α : Type} (g : α → α) (p : α → Bool) (l : List α)
    (h : ∀ x, p (g x) = p x) : (l.map g).countP p = l.countP p := by
  induction l with
  | nil => rfl
  | cons a t ih => simp [List.countP_cons, ih, h]

theorem countP_le_of_imp {α : Type} (p q : α → Bool) (l : List α)
    (h : ∀ x ∈ l, p x = true → q x = true) : l.countP p ≤ l.countP q := by
  induction l with
  | nil => simp
  | cons a t ih =>
    simp only [List.countP_cons]
    have ht : t.countP p ≤ t.countP q :=
      ih (fun x hx => h x (List.mem_cons_of_mem a hx))
    by_cases hpa : p a = true
    · have hqa := h a (List.mem_cons_self a t) hpa
      simp only [hpa, hqa, if_true]
      omega
    · simp only [Bool.not_eq_true] at hpa
      simp only [hpa]
      cases hqa : q a <;> simp <;> omega

theorem eq_of_mem_of_email_eq (l : List Entry) (hnd : NoDupEmails l) :
    ∀ x ∈ l, ∀ y ∈ l, x.email = y.email → x = y := by
  induction l with
  | nil => simp
  | cons a t ih =>
    rcases List.pairwise_cons.mp hnd with ⟨ha, ht⟩
    intro x hx y hy hxy
    rcases List.mem_cons.mp hx with rfl | hx' <;> rcases List.mem_cons.mp hy with rfl | hy'
    · rfl
    · exact absurd hxy (ha y hy')
    · exact absurd hxy.symm (ha x hx')
    · exact ih ht x hx' y hy' hxy

theorem emailCount_le_one (l : List Entry) (hnd : NoDupEmails l) (em : String) :
    emailCount l em ≤ 1 := by
  induction l with
  | nil => simp [emailCount]
  | cons a t ih =>
    rcases List.pairwise_cons.mp hnd with ⟨ha, ht⟩
    have iht := ih ht
    simp only [emailCount, List.countP_cons] at iht ⊢
    by_cases hae : (a.email == em) = true
    · have h0 : t.countP (fun e => e.email == em) = 0 := by
        rw [List.countP_eq_zero]
        intro x hx hxe
        have hne := ha x hx
        simp only [beq_iff_eq] at hae hxe
        exact hne (by rw [hae, hxe])
      rw [if_pos hae, h0]
    · rw [if_neg hae]
      omega

theorem nodup_map_email_pres (l : List Entry) (g : Entry → Entry)
    (h : ∀ x, (g x).email = x.email) (hnd : NoDupEmails l) : NoDupEmails (l.map g) := by
  unfold NoDupEmails at *
  rw [List.pairwise_map]
  exact hnd.imp (by intro a b hab; rw [h a, h b]; exact hab)

theorem refsPreserved_refl (l : List Entry) : RefsPreserved l l :=
  fun e he => ⟨e, he, rfl, rfl⟩

theorem refsPreserved_trans {l1 l2 l3 : List Entry}
    (h12 : RefsPreserved l1 l2) (h23 : RefsPreserved l2 l3) : RefsPreserved l1 l3 := by
  intro e he
  rcases h12 e he with ⟨e2, he2, hem2, hrf2⟩
  rcases h23 e2 he2 with ⟨e3, he3, hem3, hrf3⟩
  exact ⟨e3, he3, hem3.trans hem2, hrf3.trans hrf2⟩

theorem refsPreserved_map (l : List Entry) (g : Entry → Entry)
    (h : ∀ x, (g x).email = x.email ∧ (g x).ref = x.ref) :
    RefsPreserved l (l.map g) :=
  fun e he => ⟨g e, List.mem_map_of_mem g he, (h e).1, (h e).2⟩

theorem refsPreserved_append (l l2 : List Entry) : RefsPreserved l (l ++ l2) :=
  fun e he => ⟨e, List.mem_append_left _ he, rfl, rfl⟩

theorem renewalApply_email (a : CaptureArgs) (now : Nat) (nr : Bool)
    (v : Option Entry) (x : Entry) : (renewalApply a now nr v x).email = x.email := rfl

theorem renewalApply_ref (a : CaptureArgs) (now : Nat) (nr : Bool)
    (v : Option Entry) (x : Entry) : (renewalApply a now nr v x).ref = x.ref := rfl

theorem incEntry_email (rid : Nat) (x : Entry) :
    ((fun x => if x.id == rid then { x with referralCount := x.referralCount + 1 } else x) x).email
      = x.email := by
  by_cases h : (x.id == rid) = true <;> simp [h]

theorem incEntry_ref (rid : Nat) (x : Entry) :
    ((fun x => if x.id == rid then { x with referralCount := x.referralCount + 1 } else x) x).ref
      = x.ref := by
  by_cases h : (x.id == rid) = true <;> simp [h]

theorem renewalEntry_email (a : CaptureArgs) (now : Nat) (nr : Bool) (v : Option Entry)
    (x : Entry) :
    ((fun x => if x.email == a.email then renewalApply a now nr v x else x) x).email
      = x.email := by
  by_cases h : (x.email == a.email) = true <;> simp [h, renewalApply_email]

theorem renewalEntry_ref (a : CaptureArgs) (now : Nat) (nr : Bool) (v : Option Entry)
    (x : Entry) :
    ((fun x => if x.email == a.email then renewalApply a now nr v x else x) x).ref
      = x.ref := by
  by_cases h : (x.email == a.email) = true <;> simp [h, renewalApply_ref]

theorem incReferralCount_winners (db : DB) (rid : Nat) :
    (incReferralCount db rid).winners = db.winners := rfl

theorem incReferralCount_emailCount (db : DB) (rid : Nat) (em : String) :
    emailCount (incReferralCount db rid).entries em = emailCount db.entries em := by
  unfold incReferralCount emailCount
  exact countP_map_eq _ _ _ (fun x => by rw [incEntry_email rid x])

theorem incReferralCount_nodup (db : DB) (rid : Nat)
    (hnd : NoDupEmails db.entries) : NoDupEmails (incReferralCount db rid).entries :=
  nodup_map_email_pres _ _ (fun x => incEntry_email rid x) hnd

theorem incReferralCount_refs (db : DB) (rid : Nat) :
    RefsPreserved db.entries (incReferralCount db rid).entries :=
  refsPreserved_map _ _ (fun x => ⟨incEntry_email rid x, incEntry_ref rid x⟩)

theorem renewalStep_winners (db : DB) (a : CaptureArgs) (now : Nat) (e : Entry)
    (v : Option Entry) : (renewalStep db a now e v).db.winners = db.winners := by
  unfold renewalStep
  cases hnr : (v.isSome && e.referredBy == none) <;> cases hf : a.refCountFail <;>
    simp [hnr, hf, incReferralCount]

theorem insertStep_winners (db : DB) (a : CaptureArgs) (now : Nat) (ref : String)
    (v : Option Entry) : (insertStep db a now ref v).db.winners = db.winners := by
  unfold insertStep
  cases v <;> cases hf : a.refCountFail <;> simp [hf, incReferralCount]

theorem captureLoop_winners (a : CaptureArgs) (ex : Option Entry) (now : Nat)
    (rands : List Nat) :
    ∀ fuel db attempts, (captureLoop a ex now rands db attempts fuel).db.winners = db.winners := by
  intro fuel
  induction fuel with
  | zero => intro db attempts; rfl
  | succ n ih =>
    intro db attempts
    simp only [captureLoop]
    split
    · rfl
    · split
      · apply renewalStep_winners
      · split
        · split
          · exact ih db (attempts + 1)
          · rfl
        · apply insertStep_winners

theorem captureOrder_winners (db : DB) (a : CaptureArgs) (now : Nat) (rands : List Nat) :
    (captureOrder db a now rands).db.winners = db.winners := by
  unfold captureOrder
  repeat' split
  any_goals rfl
  exact captureLoop_winners a (findEntryByEmail db a.email) now rands 5 db 0

theorem incMap_refs (l : List Entry) (rid : Nat) :
    RefsPreserved l (l.map (fun x =>
      if x.id == rid then { x with referralCount := x.referralCount + 1 } else x)) :=
  refsPreserved_map _ _ (fun x => ⟨incEntry_email rid x, incEntry_ref rid x⟩)

theorem renewalMap_refs (db : DB) (a : CaptureArgs) (now : Nat) (b : Bool)
    (v : Option Entry) :
    RefsPreserved db.entries
      (db.entries.map (fun x => if x.email == a.email then renewalApply a now b v x else x)) :=
  refsPreserved_map _ _
    (fun x => ⟨renewalEntry_email a now b v x, renewalEntry_ref a now b v x⟩)

theorem renewalStep_refs (db : DB) (a : CaptureArgs) (now : Nat) (e : Entry)
    (v : Option Entry) : RefsPreserved db.entries (renewalStep db a now e v).db.entries := by
  unfold renewalStep
  cases hnr : (v.isSome && e.referredBy == none) <;> cases hf : a.refCountFail <;>
    simp only [hnr, hf, Bool.false_eq_true, if_false, if_true]
  all_goals first
    | exact renewalMap_refs db a now _ v
    | exact refsPreserved_trans (renewalMap_refs db a now _ v) (incMap_refs _ _)

theorem insertStep_refs (db : DB) (a : CaptureArgs) (now : Nat) (ref : String)
    (v : Option Entry) : RefsPreserved db.entries (insertStep db a now ref v).db.entries := by
  unfold insertStep
  cases v <;> cases hf : a.refCountFail <;>
    simp only [hf, Bool.false_eq_true, if_false, if_true]
  all_goals first
    | exact refsPreserved_append db.entries _
    | exact refsPreserved_trans (refsPreserved_append db.entries _) (incMap_refs _ _)

theorem captureLoop_refs (a : CaptureArgs) (ex : Option Entry) (now : Nat)
    (rands : List Nat) :
    ∀ fuel db attempts,
      RefsPreserved db.entries (captureLoop a ex now rands db attempts fuel).db.entries := by
  intro fuel
  induction fuel with
  | zero => intro db attempts; exact refsPreserved_refl _
  | succ n ih =>
    intro db attempts
    simp only [captureLoop]
    split
    · exact refsPreserved_refl _
    · split
      · apply renewalStep_refs
      · split
        · split
          · exact ih db (attempts + 1)
          · exact refsPreserved_refl _
        · apply insertStep_refs

theorem captureOrder_refs (db : DB) (a : CaptureArgs) (now : Nat) (rands : List Nat) :
    RefsPreserved db.entries (captureOrder db a now rands).db.entries := by
  unfold captureOrder
  repeat' split
  any_goals exact refsPreserved_refl _
  exact captureLoop_refs a (findEntryByEmail db a.email) now rands 5 db 0

theorem emailCount_map (l : List Entry) (g : Entry → Entry) (em : String)
    (h : ∀ x, (g x).email = x.email) : emailCount (l.map g) em = emailCount l em := by
  unfold emailCount
  exact countP_map_eq g _ l (fun x => by rw [h x])

theorem emailCount_append (l1 l2 : List Entry) (em : String) :
    emailCount (l1 ++ l2) em = emailCount l1 em + emailCount l2 em := by
  unfold emailCount
  exact List.countP_append ..

theorem findEntryByEmail_none_count (db : DB) (em : String)
    (h : findEntryByEmail db em = none) : emailCount db.entries em = 0 := by
  unfold findEntryByEmail at h
  rw [List.find?_eq_none] at h
  unfold emailCount
  rw [List.countP_eq_zero]
  exact h

theorem findEntryByEmail_some_facts (db : DB) (em : String) (e : Entry)
    (h : findEntryByEmail db em = some e) : e ∈ db.entries ∧ e.email = em := by
  unfold findEntryByEmail at h
  refine ⟨List.mem_of_find?_eq_some h, ?_⟩
  have := List.find?_some h
  simpa [beq_iff_eq] using this

theorem nodupEmails_append_new (l : List Entry) (new : Entry) (hnd : NoDupEmails l)
    (h : ∀ x ∈ l, x.email ≠ new.email) : NoDupEmails (l ++ [new]) := by
  unfold NoDupEmails
  rw [List.pairwise_append]
  refine ⟨hnd, List.pairwise_singleton _ _, ?_⟩
  intro x hx b hb
  rcases List.mem_singleton.mp hb with rfl
  exact h x hx

theorem newEntryOf_email (db : DB) (a : CaptureArgs) (now : Nat) (ref : String)
    (v : Option Entry) : (newEntryOf db a now ref v).email = a.email := rfl

theorem renewalStep_result (db : DB) (a : CaptureArgs) (now : Nat) (e : Entry)
    (v : Option Entry) :
    ∀ r, (renewalStep db a now e v).result = .ok r → r = ⟨e.ref, true⟩ := by
  intro r hr
  unfold renewalStep at hr
  cases hnr : (v.isSome && e.referredBy == none) <;> cases hf : a.refCountFail <;>
    simp only [hnr, hf, Bool.false_eq_true, if_false, if_true] at hr <;>
    first
      | (cases hr; rfl)
      | simp at hr

theorem renewalStep_emailCount (db : DB) (a : CaptureArgs) (now : Nat) (e : Entry)
    (v : Option Entry) (em : String) :
    emailCount (renewalStep db a now e v).db.entries em = emailCount db.entries em := by
  unfold renewalStep
  cases hnr : (v.isSome && e.referredBy == none) <;> cases hf : a.refCountFail <;>
    simp only [hnr, hf, Bool.false_eq_true, if_false, if_true] <;>
    first
      | exact emailCount_map _ _ _ (fun x => renewalEntry_email a now _ v x)
      | exact (incReferralCount_emailCount _ _ _).trans
          (emailCount_map _ _ _ (fun x => renewalEntry_email a now _ v x))

theorem renewalStep_nodup (db : DB) (a : CaptureArgs) (now : Nat) (e : Entry)
    (v : Option Entry) (hnd : NoDupEmails db.entries) :
    NoDupEmails (renewalStep db a now e v).db.entries := by
  unfold renewalStep
  cases hnr : (v.isSome && e.referredBy == none) <;> cases hf : a.refCountFail <;>
    simp only [hnr, hf, Bool.false_eq_true, if_false, if_true] <;>
    first
      | exact nodup_map_email_pres _ _ (fun x => renewalEntry_email a now _ v x) hnd
      | exact incReferralCount_nodup _ _
          (nodup_map_email_pres _ _ (fun x => renewalEntry_email a now _ v x) hnd)

theorem captureLoop_renewal_unfold (a : CaptureArgs) (now : Nat) (rands : List Nat)
    (db : DB) (e : Entry) (attempts n : Nat) :
    (∃ err, referralCheck db a = .error err ∧
      captureLoop a (some e) now rands db attempts (n + 1) = ⟨db, [], .error err⟩)
    ∨ (∃ v, referralCheck db a = .ok v ∧
      captureLoop a (some e) now rands db attempts (n + 1) = renewalStep db a now e v) := by
  rcases hrc : referralCheck db a with err | v
  · exact Or.inl ⟨err, rfl, by simp only [captureLoop, hrc]⟩
  · exact Or.inr ⟨v, rfl, by simp only [captureLoop, hrc]⟩

theorem captureLoop_new_ok (a : CaptureArgs) (now : Nat) (rands : List Nat) :
    ∀ fuel db attempts, findEntryByEmail db a.email = none → NoDupEmails db.entries →
    ∀ r, (captureLoop a none now rands db attempts fuel).result = .ok r →
      r.renewed = false
      ∧ emailCount (captureLoop a none now rands db attempts fuel).db.entries a.email = 1
      ∧ NoDupEmails (captureLoop a none now rands db attempts fuel).db.entries := by
  intro fuel
  induction fuel with
  | zero =>
    intro db attempts _ _ r hr
    exact absurd hr (by simp [captureLoop])
  | succ n ih =>
    intro db attempts hex hnd r hr
    have hcnt0 : emailCount db.entries a.email = 0 := findEntryByEmail_none_count db a.email hex
    have hall : ∀ x ∈ db.entries, x.email ≠ a.email := by
      intro x hx
      have h := List.find?_eq_none.mp hex x hx
      simpa [beq_iff_eq] using h
    rcases hrc : referralCheck db a with err | v
    · rw [show (captureLoop a none now rands db attempts (n + 1)) = ⟨db, [], .error err⟩
        from by simp only [captureLoop, hrc]] at hr
      simp at hr
    · rw [show (captureLoop a none now rands db attempts (n + 1)) =
          (if hasConflict db a (allocCandidate (rands.getD attempts 0)) then
            if attempts + 1 < 5 then captureLoop a none now rands db (attempts + 1) n
            else ⟨db, [], .error .dbSaveFailed⟩
          else insertStep db a now (allocCandidate (rands.getD attempts 0)) v)
        from by simp only [captureLoop, hrc]] at hr ⊢
      by_cases hc : hasConflict db a (allocCandidate (rands.getD attempts 0)) = true
      · rw [if_pos hc] at hr ⊢
        by_cases h5 : attempts + 1 < 5
        · rw [if_pos h5] at hr ⊢
          exact ih db (attempts + 1) hex hnd r hr
        · rw [if_neg h5] at hr
          simp at hr
      · rw [if_neg hc] at hr ⊢
        have hnew : emailCount (db.entries ++ [newEntryOf db a now
            (allocCandidate (rands.getD attempts 0)) v]) a.email = 1 := by
          rw [emailCount_append, hcnt0]
          simp [emailCount, List.countP_cons, newEntryOf_email]
        have hndnew : NoDupEmails (db.entries ++ [newEntryOf db a now
            (allocCandidate (rands.getD attempts 0)) v]) := by
          apply nodupEmails_append_new _ _ hnd
          intro x hx
          rw [newEntryOf_email]
          exact hall x hx
        unfold insertStep at hr ⊢
        rcases v with _ | referrer
        · simp only at hr ⊢
          cases hr
          refine ⟨rfl, hnew, hndnew⟩
        · cases hfail : a.refCountFail
          · simp only [hfail, Bool.false_eq_true, if_false] at hr ⊢
            cases hr
            refine ⟨rfl, ?_, ?_⟩
            · exact (incReferralCount_emailCount _ _ _).trans hnew
            · exact incReferralCount_nodup _ _ hndnew
          · simp only [hfail, if_true] at hr
            simp at hr

theorem captureOrder_eq_loop_or_err (db : DB) (a : CaptureArgs) (now : Nat)
    (rands : List Nat) :
    (∃ err, captureOrder db a now rands = ⟨db, [], .error err⟩)
    ∨ captureOrder db a now rands
        = captureLoop a (findEntryByEmail db a.email) now rands db 0 5 := by
  unfold captureOrder
  repeat' split
  any_goals exact Or.inl ⟨_, rfl⟩
  exact Or.inr rfl

theorem runOps_captures_refs :
    ∀ ops : List Op, (∀ op ∈ ops, ∃ a2 n2 r2, op = Op.capture a2 n2 r2) →
    ∀ db : DB, RefsPreserved db.entries (runOps db ops).entries := by
  intro ops
  induction ops with
  | nil => intro _ db; exact refsPreserved_refl _
  | cons o t ih =>
    intro h db
    rcases h o (List.mem_cons_self o t) with ⟨a2, n2, r2, rfl⟩
    have h1 : RefsPreserved db.entries (applyOp db (Op.capture a2 n2 r2)).entries :=
      captureOrder_refs db a2 n2 r2
    have h2 := ih (fun op hop => h op (List.mem_cons_of_mem _ hop))
      (applyOp db (Op.capture a2 n2 r2))
    exact refsPreserved_trans h1 h2

/-- Claim C1: after a successful reconciliation (`POST /capture-order`
answering success) exactly one entry row carries the paying email, the email
column stays duplicate-free, and for a renewal the returned reference code
is the pre-existing entry's code and every row still carrying the email
keeps that code; moreover every capture call (successful or not) preserves
the email and reference code of every stored row, and so does any sequence
of capture calls — reference codes are never reallocated across renewals. -/
theorem capture_unique_email_and_ref_stable
    (db : DB) (a : CaptureArgs) (now : Nat) (rands : List Nat)
    (hnd : NoDupEmails db.entries) :
    (∀ r, (captureOrder db a now rands).result = .ok r →
        emailCount (captureOrder db a now rands).db.entries a.email = 1
        ∧ NoDupEmails (captureOrder db a now rands).db.entries
        ∧ (r.renewed = true → ∃ e ∈ db.entries, e.email = a.email ∧ r.ref = e.ref
            ∧ ∀ e' ∈ (captureOrder db a now rands).db.entries,
                e'.email = a.email → e'.ref = e.ref))
    ∧ RefsPreserved db.entries (captureOrder db a now rands).db.entries
    ∧ (∀ ops : List Op, (∀ op ∈ ops, ∃ a2 n2 r2, op = Op.capture a2 n2 r2) →
        RefsPreserved db.entries (runOps db ops).entries) := by
  refine ⟨?_, captureOrder_refs db a now rands, fun ops hops => runOps_captures_refs ops hops db⟩
  intro r hr
  rcases captureOrder_eq_loop_or_err db a now rands with ⟨err, heq⟩ | heq
  · rw [heq] at hr
    simp at hr
  · rw [heq] at hr ⊢
    cases hex : findEntryByEmail db a.email with
    | none =>
      rw [hex] at hr
      have h := captureLoop_new_ok a now rands 5 db 0 hex hnd r hr
      refine ⟨h.2.1, h.2.2, ?_⟩
      intro hren
      rw [h.1] at hren
      cases hren
    | some e =>
      rw [hex] at hr
      rw [show (5 : Nat) = 4 + 1 from rfl] at hr ⊢
      rcases captureLoop_renewal_unfold a now rands db e 0 4 with ⟨err, _, heq2⟩ | ⟨v, hrc, heq2⟩
      · rw [heq2] at hr
        simp at hr
      · rw [heq2] at hr ⊢
        have hre := renewalStep_result db a now e v r hr
        have hmem := findEntryByEmail_some_facts db a.email e hex
        have hcnt : emailCount db.entries a.email = 1 := by
          have hle := emailCount_le_one db.entries hnd a.email
          have hpos : 0 < emailCount db.entries a.email := by
            unfold emailCount
            rw [List.countP_pos_iff]
            exact ⟨e, hmem.1, by simp [hmem.2]⟩
          omega
        have hout_nd := renewalStep_nodup db a now e v hnd
        have hout_cnt := (renewalStep_emailCount db a now e v a.email).trans hcnt
        refine ⟨hout_cnt, hout_nd, ?_⟩
        intro _
        refine ⟨e, hmem.1, hmem.2, by rw [hre], ?_⟩
        intro e' he' hem'
        rcases renewalStep_refs db a now e v e hmem.1 with ⟨e2, he2, he2em, he2rf⟩
        have heq' : e' = e2 :=
          eq_of_mem_of_email_eq _ hout_nd e' he' e2 he2 (by rw [hem', he2em, hmem.2])
        rw [heq', he2rf]

/-- Witness for C1 at a concrete renewal: the renewed database holds exactly
one row for the paying email. -/
theorem capture_unique_email_and_ref_stable_witness :
    emailCount (captureOrder dbRenewal (mkArgs "Bob" "a@x" none false) 1000 [7]).db.entries
      "a@x" = 1 :=
  ((capture_unique_email_and_ref_stable dbRenewal (mkArgs "Bob" "a@x" none false) 1000 [7]
      (by unfold NoDupEmails dbRenewal; simp)).1
    ⟨"DW10000", true⟩ (by decide)).1

/-- Claim C8: the withdrawal eligibility computation is a pure function of
the entry count: totalPaid is the count times the fixed 50-dollar fee,
the service charge is 7 percent of it rounded half-up to two decimals, the
refund is the difference rounded the same way, eligibility holds exactly for
counts of at least ten, and at ten entries the amounts are 500.00, 35.00 and
465.00. -/
theorem eligibility_spec :
    withdrawalEligible 9 = false
    ∧ withdrawalEligible 10 = true
    ∧ (∀ n : Nat, withdrawalEligible n = decide (10 ≤ n))
    ∧ (∀ n : Nat, 1 ≤ n → totalPaidOf n = (n : ℚ) * 50)
    ∧ (∀ n : Nat, serviceChargeOf n = round2 (totalPaidOf n * (7 / 100)))
    ∧ (∀ n : Nat, refundAmountOf n = round2 (totalPaidOf n - serviceChargeOf n))
    ∧ (∀ q : ℚ, round2 q = ((⌊q * 100 + 1 / 2⌋ : ℤ) : ℚ) / 100)
    ∧ totalPaidOf 10 = 500 ∧ serviceChargeOf 10 = 35 ∧ refundAmountOf 10 = 465 := by
  refine ⟨by decide, by decide, ?_, ?_, fun n => rfl, fun n => rfl, ?_, ?_, ?_, ?_⟩
  · intro n
    cases n with
    | zero => decide
    | succ m => simp [withdrawalEligible, effectiveCount]
  · intro n hn
    have hne : (n == 0) = false := by
      simp only [beq_eq_false_iff_ne, ne_eq]
      omega
    unfold totalPaidOf effectiveCount
    rw [hne]
    simp
  · intro q
    rw [round2, round_eq]
  · norm_num [totalPaidOf, effectiveCount]
  · norm_num [serviceChargeOf, round2, totalPaidOf, effectiveCount, round_eq]
  · norm_num [refundAmountOf, serviceChargeOf, round2, totalPaidOf, effectiveCount, round_eq]

/-- Witness for C8's hypothesis-bearing part at ten entries. -/
theorem eligibility_spec_witness : totalPaidOf 10 = (10 : ℚ) * 50 :=
  eligibility_spec.2.2.2.1 10 (by decide)

theorem map_eq_self_of_id_on {α : Type} (l : List α) (f : α → α)
    (h : ∀ x ∈ l, f x = x) : l.map f = l := by
  induction l with
  | nil => rfl
  | cons a t ih =>
    rw [List.map_cons, h a (List.mem_cons_self a t),
      ih (fun x hx => h x (List.mem_cons_of_mem _ hx))]

theorem monthlyReset_frame (db : DB) :
    (monthlyStatusReset db).1.entries = db.entries.map (fun e =>
        if e.status == "active" then { e with status := "expired" } else e)
    ∧ (monthlyStatusReset db).1.winners = db.winners
    ∧ (monthlyStatusReset db).2 = (db.entries.filter (fun e => e.status == "active")).map
        (fun e => (e.email, "duePaymentReminder")) := by
  unfold monthlyStatusReset
  by_cases h : (db.entries.filter (fun e => e.status == "active")).isEmpty = true
  · rw [if_pos h]
    have hemp : db.entries.filter (fun e => e.status == "active") = [] :=
      List.isEmpty_iff.mp h
    refine ⟨?_, rfl, ?_⟩
    · symm
      apply map_eq_self_of_id_on
      intro x hx
      have hxa : ¬(x.status == "active") = true := by
        intro hxa
        have hmem : x ∈ db.entries.filter (fun e => e.status == "active") :=
          List.mem_filter.mpr ⟨hx, hxa⟩
        rw [hemp] at hmem
        cases hmem
      rw [if_neg hxa]
    · rw [hemp]
      rfl
  · rw [if_neg h]
    exact ⟨rfl, rfl, rfl⟩

theorem monthlyReset_noActive (db : DB)
    (h : db.entries.filter (fun e => e.status == "active") = []) :
    monthlyStatusReset db = (db, []) := by
  unfold monthlyStatusReset
  simp only [h, List.isEmpty_nil, if_true]

/-- Claim C9: the monthly reset expires exactly the active entries (all
other rows and the winners table are untouched), dispatches one
due-payment-reminder notification per previously active entry, is a no-op
when no active entry exists, and applying it twice in a row leaves the
state of the first application unchanged with no notifications. -/
theorem monthlyReset_spec :
    (∀ db : DB,
      (monthlyStatusReset db).1.entries = db.entries.map (fun e =>
          if e.status == "active" then { e with status := "expired" } else e)
      ∧ (monthlyStatusReset db).1.winners = db.winners
      ∧ (monthlyStatusReset db).2 = (db.entries.filter (fun e => e.status == "active")).map
          (fun e => (e.email, "duePaymentReminder")))
    ∧ (∀ db : DB, db.entries.filter (fun e => e.status == "active") = [] →
        monthlyStatusReset db = (db, []))
    ∧ (∀ db : DB, monthlyStatusReset ((monthlyStatusReset db).1)
        = ((monthlyStatusReset db).1, [])) := by
  refine ⟨monthlyReset_frame, monthlyReset_noActive, ?_⟩
  intro db
  apply monthlyReset_noActive
  rw [(monthlyReset_frame db).1]
  rw [List.filter_eq_nil_iff]
  intro x hx
  rcases List.mem_map.mp hx with ⟨y, _, rfl⟩
  by_cases hya : (y.status == "active") = true
  · rw [if_pos hya]
    simp
  · rw [if_neg hya]
    exact hya

/-- Witness for C9 at the empty database: the reset is a no-op. -/
theorem monthlyReset_spec_witness : monthlyStatusReset initDB = (initDB, []) :=
  monthlyReset_spec.2.1 initDB (by decide)

theorem minByKey_eq_none (k : Winner → Nat) :
    ∀ l : List Winner, minByKey k l = none ↔ l = [] := by
  intro l
  cases l with
  | nil => simp [minByKey]
  | cons a t =>
    simp only [minByKey]
    constructor
    · intro h
      exfalso
      cases htm : minByKey k t with
      | none =>
        rw [htm] at h
        have h' : some a = none := h
        cases h'
      | some m =>
        rw [htm] at h
        have h' : (if k a ≤ k m then some a else some m) = none := h
        by_cases hk : k a ≤ k m
        · rw [if_pos hk] at h'; cases h'
        · rw [if_neg hk] at h'; cases h'
    · intro h
      cases h

theorem minByKey_spec (k : Winner → Nat) :
    ∀ l : List Winner, l ≠ [] →
      ∃ w ∈ l, minByKey k l = some w ∧ ∀ x ∈ l, k w ≤ k x := by
  intro l
  induction l with
  | nil => intro h; exact absurd rfl h
  | cons a t ih =>
    intro _
    rcases htm : minByKey k t with _ | m
    · have ht : t = [] := (minByKey_eq_none k t).mp htm
      subst ht
      refine ⟨a, List.mem_cons_self a [], by simp [minByKey], ?_⟩
      intro x hx
      rcases List.mem_cons.mp hx with rfl | h
      · exact le_refl _
      · cases h
    · have htne : t ≠ [] := by
        intro h
        subst h
        simp [minByKey] at htm
      rcases ih htne with ⟨w, hw, hweq, hwmin⟩
      have hm : m = w := by
        rw [htm] at hweq
        cases hweq
        rfl
      subst hm
      by_cases hk : k a ≤ k m
      · refine ⟨a, List.mem_cons_self a t, by simp [minByKey, htm, hk], ?_⟩
        intro x hx
        rcases List.mem_cons.mp hx with rfl | hx'
        · exact le_refl _
        · exact le_trans hk (hwmin x hx')
      · refine ⟨m, List.mem_cons_of_mem _ hw, by simp [minByKey, htm, hk], ?_⟩
        intro x hx
        rcases List.mem_cons.mp hx with rfl | hx'
        · omega
        · exact hwmin x hx'

/-- Claim C10 (amended): the public winner query returns the pending winner
when there is exactly one (the first by announce date when several exist);
with no pending winner it returns, among the winners paid inside the
trailing five-minute window, the one with the EARLIEST `paidAt` (ascending
order, not the most recent); with neither it returns no winner. -/
theorem currentWinner_spec (db : DB) (now : Nat) :
    (∀ w, pendingWinners db = [w] → currentWinner db now = some w)
    ∧ (pendingWinners db ≠ [] →
        ∃ w ∈ pendingWinners db, currentWinner db now = some w)
    ∧ (pendingWinners db = [] → recentPaidWinners db now ≠ [] →
        ∃ w ∈ recentPaidWinners db now, currentWinner db now = some w
          ∧ ∀ x ∈ recentPaidWinners db now, paidKey w ≤ paidKey x)
    ∧ (pendingWinners db = [] → recentPaidWinners db now = [] →
        currentWinner db now = none) := by
  refine ⟨?_, ?_, ?_, ?_⟩
  · intro w h
    unfold currentWinner
    rw [h]
    simp [minByKey]
  · intro h
    rcases minByKey_spec (fun w => w.announceDate) (pendingWinners db) h with ⟨w, hw, heq, _⟩
    refine ⟨w, hw, ?_⟩
    unfold currentWinner
    rw [heq]
  · intro hp hr
    rcases minByKey_spec paidKey (recentPaidWinners db now) hr with ⟨w, hw, heq, hmin⟩
    refine ⟨w, hw, ?_, hmin⟩
    unfold currentWinner
    rw [hp]
    simp [minByKey, heq]
  · intro hp hr
    unfold currentWinner
    rw [hp, hr]
    simp [minByKey]

/-- Witness for C10's amended theorem: the unique pending winner is
returned. -/
theorem currentWinner_spec_witness :
    currentWinner dbWinPending 300000
      = some (mkWinner 1 "Ann" "a@x" "DW10000" (some 1) 10 "pending" none) :=
  (currentWinner_spec dbWinPending 300000).1 _ (by decide)

/-- Claim C10 counterexample: two winners paid within the trailing window at
100000 and 200000 milliseconds, no pending winner; the query returns the one
paid at 100000 — the EARLIEST paid, while the claim says the most recently
paid one (paid at 200000) is returned. -/
theorem currentWinner_counterexample :
    (currentWinner dbPaidTwo 300000).map (fun w => (w.id, w.paidAt)) = some (1, some 100000)
    ∧ pendingWinners dbPaidTwo = []
    ∧ (dbPaidTwo.winners.map (fun w => (w.id, w.paymentStatus, w.paidAt)))
        = [(1, "paid", some 100000), (2, "paid", some 200000)]
    ∧ ((100000 : Nat) < 200000 ∧ 300000 - 300000 < 200000) := by
  refine ⟨by decide, by decide, by decide, by decide⟩

theorem findEntryByRef_some_facts (db : DB) (rc : String) (e : Entry)
    (h : findEntryByRef db rc = some e) : e ∈ db.entries ∧ e.ref = rc := by
  unfold findEntryByRef at h
  refine ⟨List.mem_of_find?_eq_some h, ?_⟩
  have := List.find?_some h
  simpa [beq_iff_eq] using this

theorem captureOrder_gates (db : DB) (a : CaptureArgs) (now : Nat) (rands : List Nat)
    (hcred : a.paypalCredsOk = true) (hterms : a.termsAccepted = true)
    (hok : a.captureRespOk = true) (hst : a.captureStatus = "COMPLETED")
    (hamt : a.amountValue = "50.00") (hcur : a.amountCurrency = "USD")
    (hact : (findEntryByEmail db a.email).any (fun e => e.status == "active") = false) :
    captureOrder db a now rands
      = captureLoop a (findEntryByEmail db a.email) now rands db 0 5 := by
  unfold captureOrder
  rw [hcred, hterms, hok, hst, hamt, hcur, hact]
  simp

theorem captureOrder_alreadyActive (db : DB) (a : CaptureArgs) (now : Nat)
    (rands : List Nat)
    (hcred : a.paypalCredsOk = true) (hterms : a.termsAccepted = true)
    (hact : (findEntryByEmail db a.email).any (fun e => e.status == "active") = true) :
    captureOrder db a now rands = ⟨db, [], .error .alreadyActive⟩ := by
  unfold captureOrder
  rw [hcred, hterms, hact]
  simp

theorem captureLoop_refErr (a : CaptureArgs) (ex : Option Entry) (now : Nat)
    (rands : List Nat) (db : DB) (attempts n : Nat) (err : CaptureError)
    (h : referralCheck db a = .error err) :
    captureLoop a ex now rands db attempts (n + 1) = ⟨db, [], .error err⟩ := by
  simp only [captureLoop, h]

theorem referralCheck_invalid (db : DB) (a : CaptureArgs) (rc : String)
    (hrc : a.referralCode = some rc) (h : findEntryByRef db rc = none) :
    referralCheck db a = .error .invalidReferralCode := by
  simp only [referralCheck, hrc, h]

theorem referralCheck_inactive (db : DB) (a : CaptureArgs) (rc : String) (referrer : Entry)
    (hrc : a.referralCode = some rc) (h : findEntryByRef db rc = some referrer)
    (hne : referrer.status ≠ "active") :
    referralCheck db a = .error .referrerInactive := by
  have hb : (referrer.status == "active") = false := by
    simp [beq_eq_false_iff_ne, hne]
  simp only [referralCheck, hrc, h, hb]
  simp

/-- Claim C4 (amended): with a referral code supplied and the payment gates
passed, an unknown code fails with the invalid-referral-code error and an
inactive referrer fails with the inactive-referrer error, in both cases with
no state change and no notification; an active entry for the paying email
fails with the already-active error before the referral check; and a
referral code whose owner has the paying email (self-referral) always fails,
but with the already-active or inactive-referrer error — the status check
precedes the self-referral check and the payer's own entry cannot be active
at that point, so the dedicated self-referral error is unreachable in states
with unique emails. -/
theorem capture_referral_validation
    (db : DB) (a : CaptureArgs) (now : Nat) (rands : List Nat) (rc : String)
    (hrc : a.referralCode = some rc)
    (hcred : a.paypalCredsOk = true) (hterms : a.termsAccepted = true)
    (hok : a.captureRespOk = true) (hst : a.captureStatus = "COMPLETED")
    (hamt : a.amountValue = "50.00") (hcur : a.amountCurrency = "USD") :
    ((findEntryByEmail db a.email).any (fun e => e.status == "active") = false →
      findEntryByRef db rc = none →
      captureOrder db a now rands = ⟨db, [], .error .invalidReferralCode⟩)
    ∧ (∀ referrer,
        (findEntryByEmail db a.email).any (fun e => e.status == "active") = false →
        findEntryByRef db rc = some referrer → referrer.status ≠ "active" →
        captureOrder db a now rands = ⟨db, [], .error .referrerInactive⟩)
    ∧ (∀ e, findEntryByEmail db a.email = some e → e.status = "active" →
        captureOrder db a now rands = ⟨db, [], .error .alreadyActive⟩)
    ∧ (∀ referrer, NoDupEmails db.entries →
        findEntryByRef db rc = some referrer → referrer.email = a.email →
        (captureOrder db a now rands = ⟨db, [], .error .alreadyActive⟩
          ∨ captureOrder db a now rands = ⟨db, [], .error .referrerInactive⟩)) := by
  have conj1 : (findEntryByEmail db a.email).any (fun e => e.status == "active") = false →
      findEntryByRef db rc = none →
      captureOrder db a now rands = ⟨db, [], .error .invalidReferralCode⟩ := by
    intro hact hnone
    rw [captureOrder_gates db a now rands hcred hterms hok hst hamt hcur hact]
    rw [show (5 : Nat) = 4 + 1 from rfl]
    exact captureLoop_refErr a _ now rands db 0 4 _ (referralCheck_invalid db a rc hrc hnone)
  have conj2 : ∀ referrer,
      (findEntryByEmail db a.email).any (fun e => e.status == "active") = false →
      findEntryByRef db rc = some referrer → referrer.status ≠ "active" →
      captureOrder db a now rands = ⟨db, [], .error .referrerInactive⟩ := by
    intro referrer hact hsome hne
    rw [captureOrder_gates db a now rands hcred hterms hok hst hamt hcur hact]
    rw [show (5 : Nat) = 4 + 1 from rfl]
    exact captureLoop_refErr a _ now rands db 0 4 _
      (referralCheck_inactive db a rc referrer hrc hsome hne)
  have conj3 : ∀ e, findEntryByEmail db a.email = some e → e.status = "active" →
      captureOrder db a now rands = ⟨db, [], .error .alreadyActive⟩ := by
    intro e he hse
    apply captureOrder_alreadyActive db a now rands hcred hterms
    rw [he]
    simp [hse]
  refine ⟨conj1, conj2, conj3, ?_⟩
  intro referrer hnd href hemail
  have hrmem := findEntryByRef_some_facts db rc referrer href
  have hfind : ∃ e, findEntryByEmail db a.email = some e := by
    cases hfe : findEntryByEmail db a.email with
    | none =>
      exfalso
      have hall := List.find?_eq_none.mp hfe referrer hrmem.1
      simp [hemail] at hall
    | some e => exact ⟨e, rfl⟩
  rcases hfind with ⟨e, hfe⟩
  have hef := findEntryByEmail_some_facts db a.email e hfe
  have heq : e = referrer :=
    eq_of_mem_of_email_eq _ hnd e hef.1 referrer hrmem.1 (by rw [hef.2, hemail])
  by_cases hstat : e.status = "active"
  · exact Or.inl (conj3 e hfe hstat)
  · refine Or.inr (conj2 referrer ?_ href ?_)
    · rw [hfe]
      simp only [Option.any_some]
      simp [beq_eq_false_iff_ne, hstat]
    · rw [← heq]
      exact hstat

/-- Witness for C4's amended theorem: an unknown referral code is rejected
with no state change. -/
theorem capture_referral_validation_witness :
    captureOrder dbRenewal (mkArgs "Bob" "a@x" (some "NOPE") false) 1000 [7]
      = ⟨dbRenewal, [], .error .invalidReferralCode⟩ :=
  (capture_referral_validation dbRenewal (mkArgs "Bob" "a@x" (some "NOPE") false) 1000 [7]
    "NOPE" rfl rfl rfl rfl rfl rfl rfl).1 (by decide) (by decide)

/-- Claim C4 counterexample: the paying email's own expired entry's code is
supplied as the referral code, so the referrer's email equals the paying
email, yet the call fails with the inactive-referrer error, not the
self-referral error. -/
theorem capture_referral_counterexample :
    (captureOrder dbRenewal (mkArgs "Alice" "a@x" (some "DW10000") false) 1000 [7]).result
        = .error .referrerInactive
    ∧ (findEntryByRef dbRenewal "DW10000").map (fun e => e.email) = some "a@x"
    ∧ (mkArgs "Alice" "a@x" (some "DW10000") false).email = "a@x"
    ∧ CaptureError.referrerInactive ≠ CaptureError.selfReferral := by
  refine ⟨by decide, by decide, rfl, by decide⟩

theorem referralCheck_ok_some (db : DB) (a : CaptureArgs) (referrer : Entry)
    (h : referralCheck db a = .ok (some referrer)) :
    referrer ∈ db.entries ∧ referrer.status = "active" ∧ referrer.email ≠ a.email := by
  unfold referralCheck at h
  cases hrc : a.referralCode with
  | none =>
    rw [hrc] at h
    have h1 : (Except.ok none : Except CaptureError (Option Entry)) = .ok (some referrer) := h
    simp at h1
  | some rc =>
    rw [hrc] at h
    have h1 : (match findEntryByRef db rc with
        | none => (Except.error .invalidReferralCode : Except CaptureError (Option Entry))
        | some rr =>
          if rr.status == "active" then
            if rr.email == a.email then .error .selfReferral
            else .ok (some rr)
          else .error .referrerInactive) = .ok (some referrer) := h
    cases hfr : findEntryByRef db rc with
    | none =>
      rw [hfr] at h1
      have h2 : (Except.error .invalidReferralCode
          : Except CaptureError (Option Entry)) = .ok (some referrer) := h1
      simp at h2
    | some rr =>
      rw [hfr] at h1
      have h2 : (if rr.status == "active" then
          if rr.email == a.email then (Except.error .selfReferral
            : Except CaptureError (Option Entry))
          else .ok (some rr)
          else .error .referrerInactive) = .ok (some referrer) := h1
      by_cases hs : (rr.status == "active") = true
      · rw [if_pos hs] at h2
        by_cases he : (rr.email == a.email) = true
        · rw [if_pos he] at h2
          simp at h2
        · rw [if_neg he] at h2
          have hrr : rr = referrer := by simpa using h2
          subst hrr
          refine ⟨(findEntryByRef_some_facts db rc rr hfr).1, ?_, ?_⟩
          · simpa [beq_iff_eq] using hs
          · simpa [beq_iff_eq] using he
      · rw [if_neg hs] at h2
        simp at h2

theorem renewalStep_renewed_row (db : DB) (a : CaptureArgs) (now : Nat) (e : Entry)
    (v : Option Entry)
    (hnd : NoDupEmails db.entries)
    (hmem : e ∈ db.entries) (hemail : e.email = a.email)
    (hid : ∀ referrer, v = some referrer → referrer.id ≠ e.id) :
    ∀ e' ∈ (renewalStep db a now e v).db.entries, e'.email = a.email →
      e' = renewalApply a now (v.isSome && e.referredBy == none) v e := by
  intro e' he' hem'
  have hcond : (e.email == a.email) = true := beq_iff_eq.mpr hemail
  unfold renewalStep at he'
  cases hnr : (v.isSome && e.referredBy == none) <;>
    cases hf : a.refCountFail <;>
    simp only [hnr, hf, Bool.false_eq_true, if_false, if_true, incReferralCount] at he'
  case false.false | false.true =>
    rcases List.mem_map.mp he' with ⟨x, hx, rfl⟩
    have hxe : x.email = a.email := (renewalEntry_email a now false v x).symm.trans hem'
    have hxeq : x = e := eq_of_mem_of_email_eq _ hnd x hx e hmem (hxe.trans hemail.symm)
    subst hxeq
    rw [if_pos (beq_iff_eq.mpr hxe)]
  case true.true =>
    rcases List.mem_map.mp he' with ⟨x, hx, rfl⟩
    have hxe : x.email = a.email := (renewalEntry_email a now true v x).symm.trans hem'
    have hxeq : x = e := eq_of_mem_of_email_eq _ hnd x hx e hmem (hxe.trans hemail.symm)
    subst hxeq
    rw [if_pos (beq_iff_eq.mpr hxe)]
  case true.false =>
    rcases List.mem_map.mp he' with ⟨y, hy, rfl⟩
    rcases List.mem_map.mp hy with ⟨x, hx, rfl⟩
    have hxe : x.email = a.email := by
      have h1 := incEntry_email ((v.map (fun r => r.id)).getD 0)
        ((fun x => if x.email == a.email then renewalApply a now true v x else x) x)
      rw [h1] at hem'
      exact (renewalEntry_email a now true v x).symm.trans hem'
    have hxeq : x = e := eq_of_mem_of_email_eq _ hnd x hx e hmem (hxe.trans hemail.symm)
    subst hxeq
    have hnr' := hnr
    rw [Bool.and_eq_true] at hnr'
    rcases hnr' with ⟨hsome, _⟩
    rcases Option.isSome_iff_exists.mp hsome with ⟨referrer, hv⟩
    subst hv
    have hneq : referrer.id ≠ x.id := hid referrer rfl
    rw [if_pos (beq_iff_eq.mpr hxe)]
    have hrid : ((Option.map (fun r => r.id) (some referrer)).getD 0) = referrer.id := rfl
    rw [hrid]
    have hidf : ((renewalApply a now true (some referrer) x).id == referrer.id) = false := by
      simp only [beq_eq_false_iff_ne, ne_eq]
      intro hcontra
      exact hneq hcontra.symm
    rw [if_neg (by simp [hidf])]

/-- Claim C5 (amended): a successful renewal updates the stored row to:
status active, paid, lastPaymentDate now, renewalDue now plus 30 days,
entryCount incremented, terms-acceptance fields set, and the referrer link
exactly when newly validated and none was set before: with a validated
referrer and no prior link the row gets the referrer's id and the supplied
code, with no validated referrer the two referral fields are unchanged, and
a prior link is never overwritten — and it ALSO overwrites the stored
member name with the caller-supplied name and stores the captured PayPal
order id; the id, email, reference code, creation timestamp and referral
count of the row are unchanged, and the reference code is not reallocated
(the response carries the pre-existing code). -/
theorem capture_renewal_update_fields
    (db : DB) (a : CaptureArgs) (now : Nat) (rands : List Nat) (e : Entry)
    (hcred : a.paypalCredsOk = true) (hterms : a.termsAccepted = true)
    (hok : a.captureRespOk = true) (hst : a.captureStatus = "COMPLETED")
    (hamt : a.amountValue = "50.00") (hcur : a.amountCurrency = "USD")
    (hnd : NoDupEmails db.entries)
    (hndid : ∀ x ∈ db.entries, ∀ y ∈ db.entries, x.id = y.id → x = y)
    (hfe : findEntryByEmail db a.email = some e)
    (hstat : e.status ≠ "active")
    (r : CaptureResult) (hres : (captureOrder db a now rands).result = .ok r) :
    r = ⟨e.ref, true⟩
    ∧ ∀ e' ∈ (captureOrder db a now rands).db.entries, e'.email = a.email →
        e'.id = e.id ∧ e'.ref = e.ref ∧ e'.email = e.email ∧ e'.timestamp = e.timestamp
        ∧ e'.referralCount = e.referralCount
        ∧ e'.name = a.name ∧ e'.status = "active" ∧ e'.paid = true
        ∧ e'.lastPaymentDate = some now ∧ e'.renewalDue = some (now + 2592000000)
        ∧ e'.paypalOrderId = some a.paypalOrderId
        ∧ e'.entryCount = e.entryCount + 1
        ∧ e'.termsAccepted = true ∧ e'.termsAcceptedAt = some now
        ∧ (e.referredBy ≠ none →
            e'.referredBy = e.referredBy ∧ e'.referralCode = e.referralCode)
        ∧ (∀ referrer, referralCheck db a = .ok (some referrer) → e.referredBy = none →
            e'.referredBy = some referrer.id ∧ e'.referralCode = a.referralCode)
        ∧ (referralCheck db a = .ok none →
            e'.referredBy = e.referredBy ∧ e'.referralCode = e.referralCode) := by
  have hef := findEntryByEmail_some_facts db a.email e hfe
  have hact : (findEntryByEmail db a.email).any (fun x => x.status == "active") = false := by
    rw [hfe]
    simp only [Option.any_some]
    simp [beq_eq_false_iff_ne, hstat]
  have hord := captureOrder_gates db a now rands hcred hterms hok hst hamt hcur hact
  rw [hfe] at hord
  rw [hord] at hres ⊢
  rw [show (5 : Nat) = 4 + 1 from rfl] at hres ⊢
  rcases captureLoop_renewal_unfold a now rands db e 0 4 with ⟨err, _, heq2⟩ | ⟨v, hvrc, heq2⟩
  · rw [heq2] at hres
    simp at hres
  · rw [heq2] at hres ⊢
    have hr := renewalStep_result db a now e v r hres
    have hid : ∀ referrer, v = some referrer → referrer.id ≠ e.id := by
      intro referrer hv heqid
      subst hv
      have hfacts := referralCheck_ok_some db a referrer hvrc
      have hre : referrer = e := hndid referrer hfacts.1 e hef.1 heqid
      rw [hre] at hfacts
      exact hstat hfacts.2.1
    refine ⟨hr, ?_⟩
    intro e' he' hem'
    have heq3 := renewalStep_renewed_row db a now e v hnd hef.1 hef.2 hid e' he' hem'
    subst heq3
    refine ⟨rfl, rfl, rfl, rfl, rfl, rfl, rfl, rfl, rfl, rfl, rfl, rfl, ?_, ?_, ?_, ?_, ?_⟩
    · simp [renewalApply, hterms]
    · simp [renewalApply, hterms]
    · intro hrb
      have hbf : (e.referredBy == none) = false := by
        cases hrbv : e.referredBy with
        | none => exact absurd hrbv hrb
        | some z => rfl
      constructor
      · simp [renewalApply, hbf]
      · simp [renewalApply, hbf]
    · intro referrer hsome hrbnone
      rw [hvrc] at hsome
      have hveq : v = some referrer := by
        injection hsome with h2
      subst hveq
      constructor
      · simp [renewalApply, hrbnone]
      · simp [renewalApply, hrbnone]
    · intro hnone
      rw [hvrc] at hnone
      have hveq : v = none := by
        injection hnone with h2
      subst hveq
      constructor
      · simp [renewalApply]
      · simp [renewalApply]

/-- Witness for C5's amended theorem: the concrete renewal response reuses
the stored reference code. -/
theorem capture_renewal_update_fields_witness :
    (⟨"DW10000", true⟩ : CaptureResult)
      = ⟨(mkEntry 1 "Alice" "a@x" "DW10000" "expired").ref, true⟩ :=
  (capture_renewal_update_fields dbRenewal (mkArgs "Bob" "a@x" none false) 1000 [7]
    (mkEntry 1 "Alice" "a@x" "DW10000" "expired")
    rfl rfl rfl rfl rfl rfl
    (by unfold NoDupEmails dbRenewal; simp)
    (by decide) (by decide) (by decide)
    ⟨"DW10000", true⟩ (by decide)).1

/-- Claim C5 counterexample: a renewal for the stored member "Alice" made
with the caller-supplied name "Bob" succeeds and leaves the stored member
name as "Bob" — the renewal update does not leave the stored member name
unchanged. -/
theorem capture_renewal_counterexample :
    ((captureOrder dbRenewal (mkArgs "Bob" "a@x" none false) 1000 [7]).db.entries.map
        (fun e => e.name)) = ["Bob"]
    ∧ (dbRenewal.entries.map (fun e => e.name)) = ["Alice"]
    ∧ (captureOrder dbRenewal (mkArgs "Bob" "a@x" none false) 1000 [7]).result
        = .ok ⟨"DW10000", true⟩
    ∧ "Bob" ≠ "Alice" := by
  refine ⟨by decide, by decide, by decide, by decide⟩

theorem captureLoop_conflict_step (a : CaptureArgs) (now : Nat) (rands : List Nat)
    (db : DB) (v : Option Entry) (att n : Nat)
    (hrc : referralCheck db a = .ok v)
    (hcon : hasConflict db a (allocCandidate (rands.getD att 0)) = true) :
    captureLoop a none now rands db att (n + 1)
      = if att + 1 < 5 then captureLoop a none now rands db (att + 1) n
        else ⟨db, [], .error .dbSaveFailed⟩ := by
  simp only [captureLoop, hrc, hcon, if_true]

theorem captureLoop_allConflict (a : CaptureArgs) (now : Nat) (rands : List Nat)
    (db : DB) (v : Option Entry)
    (hrc : referralCheck db a = .ok v)
    (hc : ∀ i, i < 5 → hasConflict db a (allocCandidate (rands.getD i 0)) = true) :
    captureLoop a none now rands db 0 5 = ⟨db, [], .error .dbSaveFailed⟩ := by
  rw [show (5 : Nat) = 4 + 1 from rfl]
  rw [captureLoop_conflict_step a now rands db v 0 4 hrc (hc 0 (by omega))]
  rw [if_pos (by omega)]
  rw [captureLoop_conflict_step a now rands db v 1 3 hrc (hc 1 (by omega))]
  rw [if_pos (by omega)]
  rw [captureLoop_conflict_step a now rands db v 2 2 hrc (hc 2 (by omega))]
  rw [if_pos (by omega)]
  rw [captureLoop_conflict_step a now rands db v 3 1 hrc (hc 3 (by omega))]
  rw [if_pos (by omega)]
  rw [captureLoop_conflict_step a now rands db v 4 0 hrc (hc 4 (by omega))]
  rw [if_neg (by omega)]

/-- Claim C3 (amended): every allocator candidate is the string DW followed
by the decimal digits of a number between 10000 and 99999 — five decimal
digits drawn from an address space of exactly 90,000 codes (not 100,000);
insertion is retried on a uniqueness conflict, bounded by five attempts in
total, and when all five candidates collide the call fails with the generic
database-save error (the dedicated reference-exhausted response is
unreachable) and no entry has been inserted — the state is unchanged. -/
theorem allocator_spec :
    (∀ r : Nat, allocCandidate r = "DW" ++ toString (allocCandidateNum r)
      ∧ 10000 ≤ allocCandidateNum r ∧ allocCandidateNum r ≤ 99999)
    ∧ Set.range allocCandidateNum = Set.Icc 10000 99999
    ∧ (Finset.Icc (10000 : Nat) 99999).card = 90000
    ∧ (90000 : Nat) ≠ 100000
    ∧ (∀ (db : DB) (a : CaptureArgs) (now : Nat) (rands : List Nat) (v : Option Entry),
        a.paypalCredsOk = true → a.termsAccepted = true → a.captureRespOk = true →
        a.captureStatus = "COMPLETED" → a.amountValue = "50.00" →
        a.amountCurrency = "USD" →
        findEntryByEmail db a.email = none →
        referralCheck db a = .ok v →
        (∀ i, i < 5 → hasConflict db a (allocCandidate (rands.getD i 0)) = true) →
        captureOrder db a now rands = ⟨db, [], .error .dbSaveFailed⟩) := by
  refine ⟨?_, ?_, ?_, by omega, ?_⟩
  · intro r
    refine ⟨rfl, ?_, ?_⟩ <;> unfold allocCandidateNum
    · omega
    · have := Nat.mod_lt r (show 0 < 90000 by omega)
      omega
  · ext n
    simp only [Set.mem_range, Set.mem_Icc]
    constructor
    · rintro ⟨r, rfl⟩
      unfold allocCandidateNum
      have := Nat.mod_lt r (show 0 < 90000 by omega)
      omega
    · rintro ⟨h1, h2⟩
      refine ⟨n - 10000, ?_⟩
      unfold allocCandidateNum
      rw [Nat.mod_eq_of_lt (by omega)]
      omega
  · simp [Nat.card_Icc]
  · intro db a now rands v hcred hterms hok hst hamt hcur hex hrc hc
    have hact : (findEntryByEmail db a.email).any (fun x => x.status == "active") = false := by
      rw [hex]
      rfl
    rw [captureOrder_gates db a now rands hcred hterms hok hst hamt hcur hact]
    rw [hex]
    exact captureLoop_allConflict a now rands db v hrc hc

/-- Witness for C3's amended theorem at a concrete five-collision run. -/
theorem allocator_spec_witness :
    captureOrder dbColl5 (mkArgs "Nia" "n@x" none false) 1000 [0, 1, 2, 3, 4]
      = ⟨dbColl5, [], .error .dbSaveFailed⟩ :=
  allocator_spec.2.2.2.2 dbColl5 (mkArgs "Nia" "n@x" none false) 1000 [0, 1, 2, 3, 4] none
    rfl rfl rfl rfl rfl rfl (by decide) (by decide) (by decide)

/-- Claim C3 counterexample: five colliding candidates exhaust the retry
loop, and the handler answers the generic database-save error, not the
dedicated reference-exhausted error the claim names; no entry is inserted. -/
theorem allocator_counterexample :
    captureOrder dbColl5 (mkArgs "Nia" "n@x" none false) 1000 [0, 1, 2, 3, 4]
        = ⟨dbColl5, [], .error .dbSaveFailed⟩
    ∧ CaptureError.dbSaveFailed ≠ CaptureError.refExhausted
    ∧ (dbColl5.entries.map (fun e => e.ref))
        = [allocCandidate 0, allocCandidate 1, allocCandidate 2,
           allocCandidate 3, allocCandidate 4] := by
  refine ⟨by decide, by decide, by decide⟩

theorem referralCheck_valid (db : DB) (a : CaptureArgs) (rc : String) (referrer : Entry)
    (hrc : a.referralCode = some rc) (href : findEntryByRef db rc = some referrer)
    (hrs : referrer.status = "active") (hrne : referrer.email ≠ a.email) :
    referralCheck db a = .ok (some referrer) := by
  have h1 : (referrer.status == "active") = true := beq_iff_eq.mpr hrs
  have h2 : (referrer.email == a.email) = false := by
    simp [beq_eq_false_iff_ne, hrne]
  simp only [referralCheck, hrc, href, h1, h2, Bool.false_eq_true, if_true, if_false]

theorem captureLoop_insert_first (a : CaptureArgs) (now : Nat) (rands : List Nat)
    (db : DB) (v : Option Entry)
    (hrc : referralCheck db a = .ok v)
    (hnc : hasConflict db a (allocCandidate (rands.getD 0 0)) = false) :
    captureLoop a none now rands db 0 5
      = insertStep db a now (allocCandidate (rands.getD 0 0)) v := by
  rw [show (5 : Nat) = 4 + 1 from rfl]
  simp only [captureLoop, hrc, hnc, Bool.false_eq_true, if_false]

/-- Claim C2 (amended): the Entry upsert and the referral-counter increment
are two sequential writes, not one transaction.  When both writes succeed
the final state carries both effects; when the counter write fails the
Entry upsert has already been committed — the inserted (or renewed) Entry
persists with its referrer link set while the referrer's counter is NOT
incremented — and the call answers the generic database error.  This holds
on the new-entry path and on the renewal path with a newly attached
referrer. -/
theorem capture_commit_not_atomic
    (db : DB) (a : CaptureArgs) (now : Nat) (rands : List Nat) (rc : String)
    (referrer : Entry)
    (hcred : a.paypalCredsOk = true) (hterms : a.termsAccepted = true)
    (hok : a.captureRespOk = true) (hst : a.captureStatus = "COMPLETED")
    (hamt : a.amountValue = "50.00") (hcur : a.amountCurrency = "USD")
    (hrc : a.referralCode = some rc)
    (href : findEntryByRef db rc = some referrer)
    (hrs : referrer.status = "active")
    (hrne : referrer.email ≠ a.email) :
    (findEntryByEmail db a.email = none →
      hasConflict db a (allocCandidate (rands.getD 0 0)) = false →
      (a.refCountFail = true →
        captureOrder db a now rands =
          ⟨{ db with
              entries := db.entries ++
                [newEntryOf db a now (allocCandidate (rands.getD 0 0)) (some referrer)]
              nextEntryId := db.nextEntryId + 1 },
           [], .error .dbSaveFailed⟩)
      ∧ (a.refCountFail = false →
        captureOrder db a now rands =
          ⟨incReferralCount { db with
              entries := db.entries ++
                [newEntryOf db a now (allocCandidate (rands.getD 0 0)) (some referrer)]
              nextEntryId := db.nextEntryId + 1 } referrer.id,
           [(a.email, "paymentVerification")],
           .ok ⟨allocCandidate (rands.getD 0 0), false⟩⟩))
    ∧ (∀ e, findEntryByEmail db a.email = some e → e.status ≠ "active" →
        e.referredBy = none →
        (a.refCountFail = true →
          captureOrder db a now rands =
            ⟨{ db with entries := db.entries.map (fun x =>
                if x.email == a.email then renewalApply a now true (some referrer) x
                else x) },
             [], .error .dbSaveFailed⟩)
        ∧ (a.refCountFail = false →
          captureOrder db a now rands =
            ⟨incReferralCount
              { db with entries := db.entries.map (fun x =>
                  if x.email == a.email then renewalApply a now true (some referrer) x
                  else x) } referrer.id,
             [(a.email, "renewalNotification")], .ok ⟨e.ref, true⟩⟩)) := by
  have hvalid : referralCheck db a = .ok (some referrer) :=
    referralCheck_valid db a rc referrer hrc href hrs hrne
  constructor
  · intro hex hnc
    have hact : (findEntryByEmail db a.email).any (fun x => x.status == "active") = false := by
      rw [hex]
      rfl
    have hord := captureOrder_gates db a now rands hcred hterms hok hst hamt hcur hact
    rw [hex] at hord
    rw [hord, captureLoop_insert_first a now rands db (some referrer) hvalid hnc]
    constructor
    · intro hfail
      simp only [insertStep, hfail, if_true]
    · intro hfail
      simp only [insertStep, hfail, Bool.false_eq_true, if_false]
  · intro e hfe hstat hrb
    have hact : (findEntryByEmail db a.email).any (fun x => x.status == "active") = false := by
      rw [hfe]
      simp only [Option.any_some]
      simp [beq_eq_false_iff_ne, hstat]
    have hord := captureOrder_gates db a now rands hcred hterms hok hst hamt hcur hact
    rw [hfe] at hord
    rw [hord]
    rw [show (5 : Nat) = 4 + 1 from rfl]
    rcases captureLoop_renewal_unfold a now rands db e 0 4 with ⟨err, herr, heq2⟩ | ⟨v, hv, heq2⟩
    · rw [hvalid] at herr
      cases herr
    · rw [hvalid] at hv
      have hveq : v = some referrer := by
        injection hv with h
        exact h.symm
      subst hveq
      rw [heq2]
      unfold renewalStep
      rw [hrb]
      have hb : ((some referrer).isSome && ((none : Option Nat) == none)) = true := rfl
      rw [hb]
      constructor
      · intro hfail
        simp only [hfail, if_true]
      · intro hfail
        simp only [hfail, Bool.false_eq_true, if_false, if_true]
        rfl

/-- Witness for C2's amended theorem: the success branch of a concrete
new-entry reconciliation with a referrer commits both writes. -/
theorem capture_commit_not_atomic_witness :
    captureOrder dbReferrer (mkArgs "Pat" "p@x" (some "DW10000") false) 1000 [7]
      = ⟨incReferralCount
          { dbReferrer with
            entries := dbReferrer.entries ++
              [newEntryOf dbReferrer (mkArgs "Pat" "p@x" (some "DW10000") false) 1000
                (allocCandidate 7) (some (mkEntry 1 "Rita" "r@x" "DW10000" "active"))]
            nextEntryId := dbReferrer.nextEntryId + 1 } 1,
         [("p@x", "paymentVerification")], .ok ⟨allocCandidate 7, false⟩⟩ :=
  ((capture_commit_not_atomic dbReferrer (mkArgs "Pat" "p@x" (some "DW10000") false) 1000 [7]
      "DW10000" (mkEntry 1 "Rita" "r@x" "DW10000" "active")
      rfl rfl rfl rfl rfl rfl rfl (by decide) rfl (by decide)).1
    (by decide) (by decide)).2 rfl

/-- Claim C2 counterexample: with the referral-counter write failing, the
call answers the database error, yet the new entry for the paying email is
committed with its referrer link set while the referrer's counter is still
zero — the state is not as if neither write happened. -/
theorem capture_commit_counterexample :
    (captureOrder dbReferrer (mkArgs "Pat" "p@x" (some "DW10000") true) 1000 [7]).result
        = .error .dbSaveFailed
    ∧ ((captureOrder dbReferrer (mkArgs "Pat" "p@x" (some "DW10000") true) 1000 [7]).db.entries.map
        (fun e => (e.email, e.referredBy, e.referralCount)))
        = [("r@x", none, 0), ("p@x", some 1, 0)]
    ∧ (dbReferrer.entries.map (fun e => (e.email, e.referralCount))) = [("r@x", 0)] := by
  refine ⟨by decide, by decide, by decide⟩

theorem countP_map_le {α : Type} (f : α → α) (p : α → Bool) (l : List α)
    (himp : ∀ x ∈ l, p (f x) = true → p x = true) :
    (l.map f).countP p ≤ l.countP p := by
  induction l with
  | nil => simp
  | cons a t ih =>
    simp only [List.map_cons, List.countP_cons]
    have ht := ih (fun x hx => himp x (List.mem_cons_of_mem _ hx))
    by_cases hpa : p (f a) = true
    · have hqa := himp a (List.mem_cons_self a t) hpa
      simp only [hpa, hqa, if_true]
      omega
    · simp only [Bool.not_eq_true] at hpa
      simp only [hpa, Bool.false_eq_true, if_false, Nat.add_zero]
      cases hq : p a
      · simp only [hq, Bool.false_eq_true, if_false, Nat.add_zero]
        exact ht
      · simp only [hq, if_true]
        omega

theorem countP_filter_le {α : Type} (p q : α → Bool) (l : List α) :
    (l.filter q).countP p ≤ l.countP p := by
  induction l with
  | nil => simp
  | cons a t ih =>
    simp only [List.filter_cons]
    by_cases hqa : q a = true
    · rw [if_pos hqa]
      simp only [List.countP_cons]
      cases hp : p a <;> simp <;> omega
    · rw [if_neg hqa]
      simp only [List.countP_cons]
      cases hp : p a <;> simp <;> omega

theorem countP_pending_append_one (l : List Winner) (w : Winner)
    (hzero : l.countP (fun x => x.paymentStatus == "pending") = 0)
    (hw : w.paymentStatus = "pending") :
    (l ++ [w]).countP (fun x => x.paymentStatus == "pending") ≤ 1 := by
  rw [List.countP_append, hzero]
  simp [List.countP_cons, hw]

theorem selectWinnerOp_missing (db : DB) (eid now : Nat) (h0 : (eid == 0) = true) :
    selectWinnerOp db eid now = (db, .error .missingId) := by
  simp only [selectWinnerOp, h0, if_true]

theorem selectWinnerOp_notFound (db : DB) (eid now : Nat) (h0 : (eid == 0) = false)
    (hfe : findEntryById db eid = none) :
    selectWinnerOp db eid now = (db, .error .entryNotFound) := by
  simp only [selectWinnerOp, h0, Bool.false_eq_true, if_false, hfe]

theorem selectWinnerOp_notActive (db : DB) (eid now : Nat) (e : Entry)
    (h0 : (eid == 0) = false) (hfe : findEntryById db eid = some e)
    (hs : (e.status == "active") = false) :
    selectWinnerOp db eid now = (db, .error .entryNotActive) := by
  simp only [selectWinnerOp, h0, Bool.false_eq_true, if_false, hfe, hs]

theorem selectWinnerOp_already (db : DB) (eid now : Nat) (e : Entry) (w : Winner)
    (h0 : (eid == 0) = false) (hfe : findEntryById db eid = some e)
    (hs : (e.status == "active") = true) (hpw : findPendingWinner db = some w) :
    selectWinnerOp db eid now = (db, .error .winnerAlreadyPending) := by
  simp only [selectWinnerOp, h0, Bool.false_eq_true, if_false, hfe, hs, if_true, hpw]

theorem selectWinnerOp_insert (db : DB) (eid now : Nat) (e : Entry)
    (h0 : (eid == 0) = false) (hfe : findEntryById db eid = some e)
    (hs : (e.status == "active") = true) (hpw : findPendingWinner db = none) :
    selectWinnerOp db eid now
      = ({ db with
           winners := db.winners ++
             [{ id := db.nextWinnerId, name := e.name, email := e.email, ref := e.ref,
                entryId := some e.id, announceDate := now, paymentStatus := "pending",
                winningAmount := "1000", emailSent := false, adminVerified := false,
                paidAt := none }]
           nextWinnerId := db.nextWinnerId + 1 },
         .ok { id := db.nextWinnerId, name := e.name, email := e.email, ref := e.ref,
               entryId := some e.id, announceDate := now, paymentStatus := "pending",
               winningAmount := "1000", emailSent := false, adminVerified := false,
               paidAt := none }) := by
  simp only [selectWinnerOp, h0, Bool.false_eq_true, if_false, hfe, hs, if_true, hpw]

theorem markPaidOp_notFound (db : DB) (wid now : Nat) (fl : Bool)
    (h0 : (wid == 0) = false)
    (hf : db.winners.find? (fun w => w.id == wid) = none) :
    markPaidOp db wid now fl = (db, .error .winnerNotFound) := by
  simp only [markPaidOp, h0, Bool.false_eq_true, if_false, hf]

theorem markPaidOp_fail (db : DB) (wid now : Nat) (w : Winner)
    (h0 : (wid == 0) = false)
    (hf : db.winners.find? (fun w => w.id == wid) = some w) :
    markPaidOp db wid now true
      = ({ db with winners := db.winners.map (fun x =>
            if x.id == wid then { x with paymentStatus := "paid", paidAt := some now }
            else x) },
         .error .dbSaveFailed) := by
  simp only [markPaidOp, h0, Bool.false_eq_true, if_false, hf, if_true]

theorem markPaidOp_ok_some (db : DB) (wid now : Nat) (w : Winner) (eid : Nat)
    (h0 : (wid == 0) = false)
    (hf : db.winners.find? (fun w => w.id == wid) = some w)
    (hwe : w.entryId = some eid) :
    markPaidOp db wid now false
      = ({ db with
           winners := db.winners.map (fun x =>
             if x.id == wid then { x with paymentStatus := "paid", paidAt := some now }
             else x)
           entries := db.entries.map (fun e =>
             if e.id == eid then { e with status := "winner_paid" } else e) },
         .ok { w with paymentStatus := "paid", paidAt := some now }) := by
  simp only [markPaidOp, h0, Bool.false_eq_true, if_false, hf, hwe]

theorem markPaidOp_ok_none (db : DB) (wid now : Nat) (w : Winner)
    (h0 : (wid == 0) = false)
    (hf : db.winners.find? (fun w => w.id == wid) = some w)
    (hwe : w.entryId = none) :
    markPaidOp db wid now false
      = ({ db with winners := db.winners.map (fun x =>
            if x.id == wid then { x with paymentStatus := "paid", paidAt := some now }
            else x) },
         .ok { w with paymentStatus := "paid", paidAt := some now }) := by
  simp only [markPaidOp, h0, Bool.false_eq_true, if_false, hf, hwe]

theorem markPaid_winners_le (db : DB) (wid now : Nat) :
    (db.winners.map (fun x =>
        if x.id == wid then { x with paymentStatus := "paid", paidAt := some now }
        else x)).countP (fun x => x.paymentStatus == "pending")
      ≤ db.winners.countP (fun x => x.paymentStatus == "pending") := by
  apply countP_map_le
  intro x hx hpx
  by_cases hid : (x.id == wid) = true
  · rw [if_pos hid] at hpx
    simp at hpx
  · rw [if_neg hid] at hpx
    exact hpx

theorem pendingCount_step (db : DB) (op : Op) (h : pendingCount db ≤ 1) :
    pendingCount (applyOp db op) ≤ 1 := by
  cases op with
  | capture a now rands =>
    show pendingCount (captureOrder db a now rands).db ≤ 1
    unfold pendingCount
    rw [captureOrder_winners]
    exact h
  | select eid now =>
    show pendingCount (selectWinnerOp db eid now).1 ≤ 1
    by_cases h0 : (eid == 0) = true
    · rw [selectWinnerOp_missing db eid now h0]
      exact h
    · rw [Bool.not_eq_true] at h0
      cases hfe : findEntryById db eid with
      | none =>
        rw [selectWinnerOp_notFound db eid now h0 hfe]
        exact h
      | some e =>
        by_cases hs : (e.status == "active") = true
        · cases hpw : findPendingWinner db with
          | some w =>
            rw [selectWinnerOp_already db eid now e w h0 hfe hs hpw]
            exact h
          | none =>
            rw [selectWinnerOp_insert db eid now e h0 hfe hs hpw]
            have hzero : db.winners.countP (fun x => x.paymentStatus == "pending") = 0 := by
              rw [List.countP_eq_zero]
              intro w hw
              unfold findPendingWinner at hpw
              exact List.find?_eq_none.mp hpw w hw
            exact countP_pending_append_one db.winners _ hzero rfl
        · rw [Bool.not_eq_true] at hs
          rw [selectWinnerOp_notActive db eid now e h0 hfe hs]
          exact h
  | markPaid wid now fl =>
    show pendingCount (markPaidOp db wid now fl).1 ≤ 1
    by_cases h0 : (wid == 0) = true
    · have : markPaidOp db wid now fl = (db, .error .missingId) := by
        simp only [markPaidOp, h0, if_true]
      rw [this]
      exact h
    · rw [Bool.not_eq_true] at h0
      cases hf : db.winners.find? (fun w => w.id == wid) with
      | none =>
        rw [markPaidOp_notFound db wid now fl h0 hf]
        exact h
      | some w =>
        cases fl with
        | true =>
          rw [markPaidOp_fail db wid now w h0 hf]
          exact le_trans (markPaid_winners_le db wid now) h
        | false =>
          cases hwe : w.entryId with
          | none =>
            rw [markPaidOp_ok_none db wid now w h0 hf hwe]
            exact le_trans (markPaid_winners_le db wid now) h
          | some eid =>
            rw [markPaidOp_ok_some db wid now w eid h0 hf hwe]
            exact le_trans (markPaid_winners_le db wid now) h
  | deleteWinner wid =>
    show pendingCount (deleteWinnerOp db wid) ≤ 1
    unfold deleteWinnerOp
    by_cases h0 : (wid == 0) = true
    · rw [if_pos h0]
      exact h
    · rw [if_neg h0]
      exact le_trans (countP_filter_le _ _ _) h
  | deleteEntry eid =>
    show pendingCount (deleteEntryOp db eid).1 ≤ 1
    unfold deleteEntryOp
    by_cases h0 : (eid == 0) = true
    · rw [if_pos h0]
      exact h
    · rw [if_neg h0]
      by_cases hrefd : (db.winners.any fun w => w.entryId == some eid) = true
      · rw [if_pos hrefd]
        exact h
      · rw [if_neg hrefd]
        exact h
  | monthlyReset =>
    show pendingCount (monthlyStatusReset db).1 ≤ 1
    unfold pendingCount
    rw [(monthlyReset_frame db).2.1]
    exact h

theorem pendingCount_runOps (ops : List Op) :
    ∀ db : DB, pendingCount db ≤ 1 → pendingCount (runOps db ops) ≤ 1 := by
  induction ops with
  | nil => intro db h; exact h
  | cons o t ih =>
    intro db h
    exact ih (applyOp db o) (pendingCount_step db o h)

/-- Claim C6: in every state reachable by the service's operations, at most
one winner row has pending payment status; selecting a winner fails when
the entry id is unknown, when the entry is not active, and when a pending
winner already exists — each condition checked before insertion, each
failure leaving the state unchanged — and on success inserts exactly one
pending winner snapshotting the entry's current name, email and reference
code, leaving the entries table untouched. -/
theorem selectWinner_spec :
    (∀ db : DB, Reachable db → pendingCount db ≤ 1)
    ∧ (∀ (db : DB) (eid now : Nat), eid ≠ 0 → findEntryById db eid = none →
        selectWinnerOp db eid now = (db, .error .entryNotFound))
    ∧ (∀ (db : DB) (eid now : Nat) (e : Entry), eid ≠ 0 →
        findEntryById db eid = some e → e.status ≠ "active" →
        selectWinnerOp db eid now = (db, .error .entryNotActive))
    ∧ (∀ (db : DB) (eid now : Nat) (e : Entry) (w : Winner), eid ≠ 0 →
        findEntryById db eid = some e → e.status = "active" →
        findPendingWinner db = some w →
        selectWinnerOp db eid now = (db, .error .winnerAlreadyPending))
    ∧ (∀ (db : DB) (eid now : Nat) (e : Entry), eid ≠ 0 →
        findEntryById db eid = some e → e.status = "active" →
        findPendingWinner db = none →
        (selectWinnerOp db eid now).2
            = .ok { id := db.nextWinnerId, name := e.name, email := e.email, ref := e.ref,
                    entryId := some e.id, announceDate := now, paymentStatus := "pending",
                    winningAmount := "1000", emailSent := false, adminVerified := false,
                    paidAt := none }
        ∧ (selectWinnerOp db eid now).1.winners = db.winners ++
            [{ id := db.nextWinnerId, name := e.name, email := e.email, ref := e.ref,
               entryId := some e.id, announceDate := now, paymentStatus := "pending",
               winningAmount := "1000", emailSent := false, adminVerified := false,
               paidAt := none }]
        ∧ (selectWinnerOp db eid now).1.entries = db.entries) := by
  refine ⟨?_, ?_, ?_, ?_, ?_⟩
  · rintro db ⟨ops, rfl⟩
    exact pendingCount_runOps ops initDB (by decide)
  · intro db eid now h0 hfe
    exact selectWinnerOp_notFound db eid now (by simp [h0]) hfe
  · intro db eid now e h0 hfe hne
    exact selectWinnerOp_notActive db eid now e (by simp [h0]) hfe
      (by simp [beq_eq_false_iff_ne, hne])
  · intro db eid now e w h0 hfe hse hpw
    exact selectWinnerOp_already db eid now e w (by simp [h0]) hfe (beq_iff_eq.mpr hse) hpw
  · intro db eid now e h0 hfe hse hpw
    rw [selectWinnerOp_insert db eid now e (by simp [h0]) hfe (beq_iff_eq.mpr hse) hpw]
    exact ⟨rfl, rfl, rfl⟩

/-- Witness for C6: selecting a second winner while one is pending fails
with the winner-already-pending error and changes nothing. -/
theorem selectWinner_spec_witness :
    selectWinnerOp dbWinPending 1 500 = (dbWinPending, .error .winnerAlreadyPending) :=
  selectWinner_spec.2.2.2.1 dbWinPending 1 500 (mkEntry 1 "Ann" "a@x" "DW10000" "active")
    (mkWinner 1 "Ann" "a@x" "DW10000" (some 1) 10 "pending" none)
    (by decide) (by decide) rfl (by decide)

/-- Claim C7 (amended): marking a winner paid with an unknown id fails with
the winner-not-found error and changes no state; on success it sets the
winner's payment status to paid with paidAt = now and then, as a SECOND
separate write, sets the linked entry's status to winner_paid — the two
writes are sequential, not one transaction: when the entry write fails the
winner row stays marked paid while the entry is unchanged and the call
reports a database error; and the paid state is terminal — no operation
turns a stored winner row back to pending (a pending row after any
operation is either a previously stored pending row or the freshly
inserted selection). -/
theorem markPaid_spec :
    (∀ (db : DB) (wid now : Nat) (fl : Bool), wid ≠ 0 →
        db.winners.find? (fun w => w.id == wid) = none →
        markPaidOp db wid now fl = (db, .error .winnerNotFound))
    ∧ (∀ (db : DB) (wid now : Nat) (w : Winner) (eid : Nat), wid ≠ 0 →
        db.winners.find? (fun w => w.id == wid) = some w → w.entryId = some eid →
        markPaidOp db wid now false
          = ({ db with
               winners := db.winners.map (fun x =>
                 if x.id == wid then { x with paymentStatus := "paid", paidAt := some now }
                 else x)
               entries := db.entries.map (fun e =>
                 if e.id == eid then { e with status := "winner_paid" } else e) },
             .ok { w with paymentStatus := "paid", paidAt := some now }))
    ∧ (∀ (db : DB) (wid now : Nat) (w : Winner), wid ≠ 0 →
        db.winners.find? (fun w => w.id == wid) = some w →
        markPaidOp db wid now true
          = ({ db with winners := db.winners.map (fun x =>
                if x.id == wid then { x with paymentStatus := "paid", paidAt := some now }
                else x) },
             .error .dbSaveFailed))
    ∧ (∀ (db : DB) (op : Op), ∀ w' ∈ (applyOp db op).winners,
        w'.paymentStatus = "pending" → w' ∈ db.winners ∨ w'.id = db.nextWinnerId) := by
  refine ⟨?_, ?_, ?_, ?_⟩
  · intro db wid now fl h0 hf
    exact markPaidOp_notFound db wid now fl (by simp [h0]) hf
  · intro db wid now w eid h0 hf hwe
    exact markPaidOp_ok_some db wid now w eid (by simp [h0]) hf hwe
  · intro db wid now w h0 hf
    exact markPaidOp_fail db wid now w (by simp [h0]) hf
  · intro db op w' hw' hp
    cases op with
    | capture a now rands =>
      have hcw : (applyOp db (Op.capture a now rands)).winners = db.winners :=
        captureOrder_winners db a now rands
      rw [hcw] at hw'
      exact Or.inl hw'
    | select eid now =>
      by_cases h0 : (eid == 0) = true
      · rw [show (applyOp db (Op.select eid now)).winners = db.winners from by
          rw [show applyOp db (Op.select eid now) = (selectWinnerOp db eid now).1 from rfl,
            selectWinnerOp_missing db eid now h0]] at hw'
        exact Or.inl hw'
      · rw [Bool.not_eq_true] at h0
        cases hfe : findEntryById db eid with
        | none =>
          rw [show (applyOp db (Op.select eid now)).winners = db.winners from by
            rw [show applyOp db (Op.select eid now) = (selectWinnerOp db eid now).1 from rfl,
              selectWinnerOp_notFound db eid now h0 hfe]] at hw'
          exact Or.inl hw'
        | some e =>
          by_cases hs : (e.status == "active") = true
          · cases hpw : findPendingWinner db with
            | some w =>
              rw [show (applyOp db (Op.select eid now)).winners = db.winners from by
                rw [show applyOp db (Op.select eid now) = (selectWinnerOp db eid now).1 from rfl,
                  selectWinnerOp_already db eid now e w h0 hfe hs hpw]] at hw'
              exact Or.inl hw'
            | none =>
              rw [show applyOp db (Op.select eid now) = (selectWinnerOp db eid now).1 from rfl,
                selectWinnerOp_insert db eid now e h0 hfe hs hpw] at hw'
              rcases List.mem_append.mp hw' with hin | hin
              · exact Or.inl hin
              · rcases List.mem_singleton.mp hin with rfl
                exact Or.inr rfl
          · rw [Bool.not_eq_true] at hs
            rw [show (applyOp db (Op.select eid now)).winners = db.winners from by
              rw [show applyOp db (Op.select eid now) = (selectWinnerOp db eid now).1 from rfl,
                selectWinnerOp_notActive db eid now e h0 hfe hs]] at hw'
            exact Or.inl hw'
    | markPaid wid now fl =>
      by_cases h0 : (wid == 0) = true
      · rw [show (applyOp db (Op.markPaid wid now fl)).winners = db.winners from by
          rw [show applyOp db (Op.markPaid wid now fl) = (markPaidOp db wid now fl).1 from rfl]
          simp only [markPaidOp, h0, if_true]] at hw'
        exact Or.inl hw'
      · rw [Bool.not_eq_true] at h0
        cases hf : db.winners.find? (fun w => w.id == wid) with
        | none =>
          rw [show (applyOp db (Op.markPaid wid now fl)).winners = db.winners from by
            rw [show applyOp db (Op.markPaid wid now fl) = (markPaidOp db wid now fl).1 from rfl,
              markPaidOp_notFound db wid now fl h0 hf]] at hw'
          exact Or.inl hw'
        | some w =>
          have hmap : (applyOp db (Op.markPaid wid now fl)).winners
              = db.winners.map (fun x =>
                  if x.id == wid then { x with paymentStatus := "paid", paidAt := some now }
                  else x) := by
            rw [show applyOp db (Op.markPaid wid now fl) = (markPaidOp db wid now fl).1 from rfl]
            cases fl with
            | true => rw [markPaidOp_fail db wid now w h0 hf]
            | false =>
              cases hwe : w.entryId with
              | none => rw [markPaidOp_ok_none db wid now w h0 hf hwe]
              | some eid => rw [markPaidOp_ok_some db wid now w eid h0 hf hwe]
          rw [hmap] at hw'
          rcases List.mem_map.mp hw' with ⟨x, hx, rfl⟩
          by_cases hid : (x.id == wid) = true
          · rw [if_pos hid] at hp
            simp at hp
          · rw [if_neg hid]
            exact Or.inl hx
    | deleteWinner wid =>
      have : applyOp db (Op.deleteWinner wid) = deleteWinnerOp db wid := rfl
      rw [this] at hw'
      unfold deleteWinnerOp at hw'
      by_cases h0 : (wid == 0) = true
      · rw [if_pos h0] at hw'
        exact Or.inl hw'
      · rw [if_neg h0] at hw'
        exact Or.inl (List.mem_of_mem_filter hw')
    | deleteEntry eid =>
      have : applyOp db (Op.deleteEntry eid) = (deleteEntryOp db eid).1 := rfl
      rw [this] at hw'
      unfold deleteEntryOp at hw'
      by_cases h0 : (eid == 0) = true
      · rw [if_pos h0] at hw'
        exact Or.inl hw'
      · rw [if_neg h0] at hw'
        by_cases hrefd : (db.winners.any fun w => w.entryId == some eid) = true
        · rw [if_pos hrefd] at hw'
          exact Or.inl hw'
        · rw [if_neg hrefd] at hw'
          exact Or.inl hw'
    | monthlyReset =>
      have hmw : (applyOp db Op.monthlyReset).winners = db.winners :=
        (monthlyReset_frame db).2.1
      rw [hmw] at hw'
      exact Or.inl hw'

/-- Witness for C7's amended theorem: a concrete successful payout marks
the winner paid and cascades the entry status. -/
theorem markPaid_spec_witness :
    markPaidOp dbWinPending 1 99 false
      = ({ dbWinPending with
           winners := dbWinPending.winners.map (fun x =>
             if x.id == 1 then { x with paymentStatus := "paid", paidAt := some 99 }
             else x)
           entries := dbWinPending.entries.map (fun e =>
             if e.id == 1 then { e with status := "winner_paid" } else e) },
         .ok { mkWinner 1 "Ann" "a@x" "DW10000" (some 1) 10 "pending" none with
               paymentStatus := "paid", paidAt := some 99 }) :=
  markPaid_spec.2.1 dbWinPending 1 99
    (mkWinner 1 "Ann" "a@x" "DW10000" (some 1) 10 "pending" none) 1
    (by decide) (by decide) rfl

/-- Claim C7 counterexample: when the entry-status write fails, the winner
row is already committed as paid while the linked entry still has status
active — the two writes are not atomic together. -/
theorem markPaid_counterexample :
    (markPaidOp dbWinPending 1 99 true).2 = .error .dbSaveFailed
    ∧ ((markPaidOp dbWinPending 1 99 true).1.winners.map
        (fun w => (w.id, w.paymentStatus, w.paidAt))) = [(1, "paid", some 99)]
    ∧ ((markPaidOp dbWinPending 1 99 true).1.entries.map
        (fun e => (e.id, e.status))) = [(1, "active")]
    ∧ "active" ≠ "winner_paid" := by
  refine ⟨by decide, by decide, by decide, by decide⟩
